import Mathlib

/-!
# Verification of the profinet-rs DCP core

A shallow embedding, in Lean 4, of the DCP (PROFINET Discovery and
Configuration Protocol) core of the `profinet-rs` repository, together with
theorems settling the specification claims about it.

The embedding follows `src/src/dcp/{mod,block,block_options,header}.rs`,
`src/src/ethernet/mod.rs` and `src/src/lib.rs`.  Conventions:

* Byte buffers are `List Nat` (each entry is one byte; the Rust types make
  every stored value `< 256`).  Big-endian reads/writes mirror
  `byteorder::NetworkEndian`.
* Rust `Result` becomes `Except`; a Rust panic (out-of-bounds index or slice,
  or a `todo!()`) is modelled as a dedicated `panic` error constructor, since
  a panic is a failure mode observable to the caller and distinct from any
  `Err` value.
* `u16` wrapping subtraction (`block_length - 2` in release builds) is
  modelled as addition of `2^16 - 2` followed by `% 2^16`.
* Fixed-size Rust arrays (`[u8; 240]`, `[Option<DcpBlock>; 32]`, ...) are
  lists whose length is maintained at the array length; theorems carry the
  corresponding length hypotheses where the Rust type system provides them.
-/

namespace Profinet

set_option maxRecDepth 8000

/-- Read a big-endian `u16` at offset `i`, as `NetworkEndian::read_u16` on
`&data[i..i+2]`; `none` models the out-of-bounds panic. -/
def readU16At (l : List Nat) (i : Nat) : Option Nat := do
  let a ← l.get? i
  let b ← l.get? (i + 1)
  pure (a * 256 + b)

/-- Read a big-endian `u32` at offset `i` (`NetworkEndian::read_u32`). -/
def readU32At (l : List Nat) (i : Nat) : Option Nat := do
  let a ← l.get? i
  let b ← l.get? (i + 1)
  let c ← l.get? (i + 2)
  let d ← l.get? (i + 3)
  pure (((a * 256 + b) * 256 + c) * 256 + d)

/-- Big-endian bytes of a `u16` (`NetworkEndian::write_u16`). -/
def u16be (n : Nat) : List Nat := [n / 256 % 256, n % 256]

/-- Big-endian bytes of a `u32` (`NetworkEndian::write_u32`). -/
def u32be (n : Nat) : List Nat :=
  [n / 16777216 % 256, n / 65536 % 256, n / 256 % 256, n % 256]

/-- `EthType` from `src/src/ethernet/mod.rs` (`Other` is the `num_enum`
default for every unlisted `u16`). -/
inductive EthType where
  | profinet
  | vlan
  | other
  deriving DecidableEq, Repr

/-- `EthType::from(u16)` (`FromPrimitive` with `Other` as default). -/
def EthType.fromU16 (n : Nat) : EthType :=
  if n = 0x8892 then .profinet else if n = 0x8100 then .vlan else .other

/-- Numeric value used by `Dcp::encode_into` (`self.eth_type as u16`). -/
def EthType.toU16 : EthType → Nat
  | .profinet => 0x8892
  | .vlan => 0x8100
  | .other => 0

/-- `DcpFrameId` from `src/src/dcp/mod.rs`. -/
inductive DcpFrameId where
  | hello
  | getSet
  | request
  | response
  deriving DecidableEq, Repr

def DcpFrameId.toU16 : DcpFrameId → Nat
  | .hello => 0xfefc
  | .getSet => 0xfefd
  | .request => 0xfefe
  | .response => 0xfeff

/-- `DcpFrameId::try_from_primitive`. -/
def DcpFrameId.fromU16 (n : Nat) : Option DcpFrameId :=
  if n = 0xfefc then some .hello
  else if n = 0xfefd then some .getSet
  else if n = 0xfefe then some .request
  else if n = 0xfeff then some .response
  else none

/-- `ServiceType` from `src/src/dcp/header.rs`. -/
inductive ServiceType where
  | request
  | success
  | notSupported
  deriving DecidableEq, Repr

def ServiceType.toNat : ServiceType → Nat
  | .request => 0
  | .success => 1
  | .notSupported => 5

def ServiceType.fromNat (n : Nat) : Option ServiceType :=
  if n = 0 then some .request
  else if n = 1 then some .success
  else if n = 5 then some .notSupported
  else none

/-- `ServiceId` from `src/src/dcp/header.rs`. -/
inductive ServiceId where
  | get
  | set
  | identify
  | hello
  deriving DecidableEq, Repr

def ServiceId.toNat : ServiceId → Nat
  | .get => 3
  | .set => 4
  | .identify => 5
  | .hello => 6

def ServiceId.fromNat (n : Nat) : Option ServiceId :=
  if n = 3 then some .get
  else if n = 4 then some .set
  else if n = 5 then some .identify
  else if n = 6 then some .hello
  else none

/-- `DeviceRole` from `src/src/dcp/block_options.rs`. -/
inductive DeviceRole where
  | ioDevice
  | ioController
  | ioMultidevice
  | ioSupervisor
  deriving DecidableEq, Repr

def DeviceRole.toNat : DeviceRole → Nat
  | .ioDevice => 0
  | .ioController => 1
  | .ioMultidevice => 2
  | .ioSupervisor => 3

def DeviceRole.fromNat (n : Nat) : Option DeviceRole :=
  if n = 0 then some .ioDevice
  else if n = 1 then some .ioController
  else if n = 2 then some .ioMultidevice
  else if n = 3 then some .ioSupervisor
  else none

/-- `BlockOption` from `src/src/dcp/block_options.rs`.  `ManufacturerSpecific`
is `0x80` with `num_enum` alternatives `0x81..0xfe` (half-open). -/
inductive BlockOption where
  | ip
  | deviceProperties
  | dhcp
  | control
  | deviceInitiative
  | nmeDomain
  | manufacturerSpecific
  | all
  deriving DecidableEq, Repr

/-- `BlockOption::try_from`. -/
def BlockOption.fromNat (n : Nat) : Option BlockOption :=
  if n = 1 then some .ip
  else if n = 2 then some .deviceProperties
  else if n = 3 then some .dhcp
  else if n = 5 then some .control
  else if n = 6 then some .deviceInitiative
  else if n = 7 then some .nmeDomain
  else if 0x80 ≤ n ∧ n < 0xfe then some .manufacturerSpecific
  else if n = 255 then some .all
  else none

/- Block payload structures, from `src/src/dcp/block.rs`.  Byte-array fields
become `List Nat`; their lengths (6 for a MAC, 4 for an IPv4 address, 255 for
`DeviceVendor.vendor`, 240 for `NameOfStation.name`) are carried as
hypotheses where needed. -/

structure MacAddress where
  address : List Nat
  deriving DecidableEq, Repr

structure IpParameter where
  ip_address : List Nat
  subnet_mask : List Nat
  gateway : List Nat
  deriving DecidableEq, Repr

structure FullIpSuite where
  ip_address : List Nat
  subnet_mask : List Nat
  gateway : List Nat
  dns : List Nat
  deriving DecidableEq, Repr

/-- `DeviceVendor`: a 255-byte array plus a length. -/
structure DeviceVendor where
  vendor : List Nat
  length : Nat
  deriving DecidableEq, Repr

/-- `NameOfStation`: a 240-byte array plus a length. -/
structure NameOfStation where
  name : List Nat
  length : Nat
  deriving DecidableEq, Repr

structure DeviceId where
  vendor_id : Nat
  device_id : Nat
  deriving DecidableEq, Repr

structure DeviceInstance where
  high : Nat
  low : Nat
  deriving DecidableEq, Repr

inductive IpBlock where
  | macAddress (mac : MacAddress)
  | ipParameter (ip : IpParameter)
  | fullIpSuite (suite : FullIpSuite)
  deriving DecidableEq, Repr

inductive DevicePropertiesBlock where
  | deviceVendor (dv : DeviceVendor)
  | nameOfStation (nos : NameOfStation)
  | deviceId (id : DeviceId)
  | deviceRole (dr : DeviceRole)
  | deviceOptions
  | aliasName
  | deviceInstance (di : DeviceInstance)
  | oemDeviceId
  | standardGateway
  | rsiProperties
  deriving DecidableEq, Repr

inductive Block where
  | ip (b : IpBlock)
  | deviceProperties (b : DevicePropertiesBlock)
  | all
  deriving DecidableEq, Repr

/-- `DcpBlock`: a typed block plus its stored `block_length`. -/
structure DcpBlock where
  block : Block
  block_length : Nat
  deriving DecidableEq, Repr

/-- `MacAddress::block_length` (= `ADDRESS.end + 2 = 8`). -/
def MacAddress.blockLen (_ : MacAddress) : Nat := 8

/-- `IpParameter::block_length` (= `GATEWAY.end + 2 = 14`). -/
def IpParameter.blockLen (_ : IpParameter) : Nat := 14

/-- `FullIpSuite::block_length` (= `DNS.end + 2 = 18`). -/
def FullIpSuite.blockLen (_ : FullIpSuite) : Nat := 18

def IpBlock.blockLen : IpBlock → Nat
  | .macAddress m => m.blockLen
  | .ipParameter p => p.blockLen
  | .fullIpSuite s => s.blockLen

/-- `DevicePropertiesBlock::block_length` (vendor/name use their stored
length + 2; `DeviceId` is `size_of::<DeviceId>() + 2 = 6`; `DeviceInstance`
is `4`; `DeviceOptions` is `4`; valueless variants are `1 + 2 = 3`). -/
def DevicePropertiesBlock.blockLen : DevicePropertiesBlock → Nat
  | .deviceVendor dv => dv.length + 2
  | .nameOfStation nos => nos.length + 2
  | .deviceId _ => 6
  | .deviceInstance _ => 4
  | .deviceOptions => 4
  | _ => 3

def Block.blockLen : Block → Nat
  | .ip b => b.blockLen
  | .deviceProperties b => b.blockLen
  | .all => 0

/-- `DcpBlock::new`: body length + 4 bytes of block header, rounded up to
even (the pad byte). -/
def DcpBlock.new (block : Block) : DcpBlock :=
  let bl := block.blockLen + 4
  ⟨block, if bl % 2 = 1 then bl + 1 else bl⟩

/- Encoding.  `encode_into` in the source writes into a caller buffer at
fixed offsets: option byte, suboption byte, big-endian declared length,
big-endian BlockInfo word, then the payload.  We model the encoding of one
block as the list of bytes it writes, padded with `0` up to the stored
`block_length` — this is exactly the contents of the block's slot when the
block is encoded into a zero-initialised buffer, which is how every call
site uses it (`handle_frame` encodes into `[0; 255]`). -/

/-- The bytes actually written for one block (wire offsets `0..`):
option, suboption, declared length, BlockInfo word, payload.
`IpBlock::encode_into` writes the constant `1` as the BlockInfo word;
`DevicePropertiesBlock::encode_into` writes `0`.  The declared lengths are
the constants written by the source (`8`/`14`/`20` for the IP group, hence
`20` for `FullIpSuite` even though its `block_length` accounts for `18`).
`Block::All` writes only the two option bytes. -/
def Block.writtenBytes : Block → List Nat
  | .all => [255, 255]
  | .ip b =>
    1 :: (match b with
      | .macAddress m => 1 :: u16be 8 ++ u16be 1 ++ m.address
      | .ipParameter p =>
          2 :: u16be 14 ++ u16be 1 ++ p.ip_address ++ p.subnet_mask ++ p.gateway
      | .fullIpSuite s =>
          3 :: u16be 20 ++ u16be 1 ++ s.ip_address ++ s.subnet_mask ++ s.gateway ++ s.dns)
  | .deviceProperties b =>
    2 :: (match b with
      | .deviceVendor dv => 1 :: u16be (dv.length + 2) ++ u16be 0 ++ dv.vendor.take dv.length
      | .nameOfStation nos => 2 :: u16be (nos.length + 2) ++ u16be 0 ++ nos.name.take nos.length
      | .deviceId id => 3 :: u16be 6 ++ u16be 0 ++ u16be id.vendor_id ++ u16be id.device_id
      | .deviceRole dr => 4 :: u16be 4 ++ u16be 0 ++ [dr.toNat]
      | .deviceOptions => 5 :: u16be 4 ++ u16be 0 ++ [2, 7]
      | .aliasName => 6 :: u16be 3 ++ u16be 0 ++ [0]
      | .deviceInstance di => 7 :: u16be 4 ++ u16be 0 ++ [di.high, di.low]
      | .oemDeviceId => 8 :: u16be 3 ++ u16be 0 ++ [0]
      | .standardGateway => 9 :: u16be 3 ++ u16be 0 ++ [0]
      | .rsiProperties => 10 :: u16be 3 ++ u16be 0 ++ [0])

/-- The declared-length field the encoder writes for a block (the value the
parser later reads back at wire offset `2..4`; for `All` the encoder writes
no length field, so a zeroed buffer yields `0`). -/
def Block.declaredLen : Block → Nat
  | .all => 0
  | .ip (.macAddress _) => 8
  | .ip (.ipParameter _) => 14
  | .ip (.fullIpSuite _) => 20
  | .deviceProperties (.deviceVendor dv) => dv.length + 2
  | .deviceProperties (.nameOfStation nos) => nos.length + 2
  | .deviceProperties (.deviceId _) => 6
  | .deviceProperties (.deviceRole _) => 4
  | .deviceProperties (.deviceOptions) => 4
  | .deviceProperties (.aliasName) => 3
  | .deviceProperties (.deviceInstance _) => 4
  | .deviceProperties (.oemDeviceId) => 3
  | .deviceProperties (.standardGateway) => 3
  | .deviceProperties (.rsiProperties) => 3

/-- The contents of a block's `block_length`-byte slot in a zero-initialised
encode buffer: the written bytes followed by the untouched zero bytes. -/
def DcpBlock.encodeBytes (b : DcpBlock) : List Nat :=
  b.block.writtenBytes ++ List.replicate (b.block_length - b.block.writtenBytes.length) 0

/-- `DcpHeader` from `src/src/dcp/header.rs`. -/
structure DcpHeader where
  service_id : ServiceId
  service_type : ServiceType
  x_id : Nat
  response_delay_factor : Nat
  data_length : Nat
  deriving DecidableEq, Repr

/-- `DcpHeader::new` (note: `data_length` starts at `0`). -/
def DcpHeader.new (sid : ServiceId) (sty : ServiceType) (xid rd : Nat) : DcpHeader :=
  ⟨sid, sty, xid, rd, 0⟩

/-- `DcpHeader::encode_into`: ServiceID, ServiceType, XID, then the constant
`0` for the response-delay field, then DataLength. -/
def DcpHeader.encodeBytes (h : DcpHeader) : List Nat :=
  h.service_id.toNat :: h.service_type.toNat :: u32be h.x_id ++ u16be 0 ++ u16be h.data_length

/-- `MAX_DCP_BLOCK_NUMBER` from `src/src/dcp/mod.rs`. -/
def MAX_DCP_BLOCK_NUMBER : Nat := 32

/-- `DCP_MAC_HELLO_ADDRESS` from `src/src/dcp/mod.rs`. -/
def DCP_MAC_HELLO_ADDRESS : List Nat := [0x01, 0x0e, 0xcf, 0x00, 0x00, 0x00]

/-- The `Dcp` frame structure from `src/src/dcp/mod.rs`; `blocks` models the
`[Option<DcpBlock>; 32]` array as a list kept at length 32. -/
structure Dcp where
  destination : List Nat
  source : List Nat
  eth_type : EthType
  frame_id : DcpFrameId
  header : DcpHeader
  number_of_blocks : Nat
  blocks : List (Option DcpBlock)
  deriving DecidableEq, Repr

/-- `Dcp::new`. -/
def Dcp.new (destination source : List Nat) (header : DcpHeader)
    (frame_id : DcpFrameId) : Dcp :=
  ⟨destination, source, .profinet, frame_id, header, 0,
    List.replicate MAX_DCP_BLOCK_NUMBER none⟩

/-- `Dcp::add_block`: store the block at index `number_of_blocks`, bump the
count, add the block's `block_length` to the header's `data_length` (a `u16`,
hence the `% 2^16`).  In Rust the array write panics when
`number_of_blocks ≥ 32`; theorems about `add_block` therefore carry a
`≤ 32` bound on the number of blocks added, and inside that bound this
definition agrees with the source. -/
def Dcp.add_block (d : Dcp) (b : DcpBlock) : Dcp :=
  { d with
    blocks := d.blocks.set d.number_of_blocks (some b)
    number_of_blocks := d.number_of_blocks + 1
    header := { d.header with
      data_length := (d.header.data_length + b.block_length) % 65536 } }

/-- `Dcp::dst_is_hello`. -/
def Dcp.dst_is_hello (d : Dcp) : Bool :=
  d.destination = DCP_MAC_HELLO_ADDRESS

/-- `Dcp::response_delay_time`.  The caller's `response_delay_factor` is a
`u16`; `delay` and the result are `usize`. -/
def Dcp.response_delay_time (d : Dcp) : Nat :=
  if d.header.response_delay_factor ≤ 1 then 400
  else
    let delay := 1 + d.header.response_delay_factor * 10
    delay + (1000 - delay % 1000)

/-- `Dcp::encode_into` on a zero-initialised buffer, as the list of bytes of
the encoded region: destination and source MAC, EtherType, FrameID, the
10-byte header, then each present block in array order, each occupying
`block_length` bytes.  (The source writes each block at the cumulative
`block_length` offset; for blocks built by `DcpBlock::new` the written bytes
fit inside their slot, so concatenation is exact.) -/
def Dcp.encodeBytes (d : Dcp) : List Nat :=
  d.destination ++ d.source ++ u16be d.eth_type.toU16 ++ u16be d.frame_id.toU16 ++
    d.header.encodeBytes ++ ((d.blocks.filterMap id).map DcpBlock.encodeBytes).flatten

/- Parsing, from `src/src/dcp/block.rs` and `src/src/dcp/mod.rs`.  Errors
follow `ParseDcpBlockError` / `ParseDcpError`; the extra `panic` constructor
models a Rust panic (out-of-bounds index/slice, or the `todo!()` arm for the
option groups the block codec does not implement). -/

inductive BlockErr where
  | invalidBlockOption
  | invalidIPSuboption
  | invalidDevicePropertySuboption
  | invalidDeviceRole
  | panic
  deriving DecidableEq, Repr

/-- Lift an indexing operation: `none` is an out-of-bounds panic. -/
def pr {α : Type} (o : Option α) : Except BlockErr α :=
  match o with
  | some a => .ok a
  | none => .error .panic

/-- `MacAddress::new`: reads `buffer[0..6]`. -/
def MacAddress.parse (payload : List Nat) : Except BlockErr MacAddress :=
  if payload.length < 6 then .error .panic
  else .ok ⟨payload.take 6⟩

/-- `IpParameter::new`: reads ip `0..4`, mask `4..8`, gateway `8..12`. -/
def IpParameter.parse (payload : List Nat) : Except BlockErr IpParameter :=
  if payload.length < 12 then .error .panic
  else .ok ⟨payload.take 4, (payload.drop 4).take 4, (payload.drop 8).take 4⟩

/-- `FullIpSuite::new`: adds dns at `12..16`. -/
def FullIpSuite.parse (payload : List Nat) : Except BlockErr FullIpSuite :=
  if payload.length < 16 then .error .panic
  else .ok ⟨payload.take 4, (payload.drop 4).take 4, (payload.drop 8).take 4,
    (payload.drop 12).take 4⟩

/-- `DeviceVendor::parse_bytes`: copies `data_size` bytes into the 255-byte
array (reading past the slice or writing past the array panics). -/
def DeviceVendor.parse_bytes (buffer : List Nat) (dataSize : Nat) :
    Except BlockErr DeviceVendor :=
  if dataSize > 255 ∨ dataSize > buffer.length then .error .panic
  else .ok ⟨buffer.take dataSize ++ List.replicate (255 - dataSize) 0, dataSize⟩

/-- `NameOfStation::parse_bytes`: same with the 240-byte array. -/
def NameOfStation.parse_bytes (buffer : List Nat) (dataSize : Nat) :
    Except BlockErr NameOfStation :=
  if dataSize > 240 ∨ dataSize > buffer.length then .error .panic
  else .ok ⟨buffer.take dataSize ++ List.replicate (240 - dataSize) 0, dataSize⟩

/-- `DeviceId::parse_bytes`: two big-endian `u16`s. -/
def DeviceId.parse_bytes (buffer : List Nat) : Except BlockErr DeviceId := do
  let v ← pr (readU16At buffer 0)
  let d ← pr (readU16At buffer 2)
  pure ⟨v, d⟩

/-- `DeviceInstance::parse_bytes`: two bytes. -/
def DeviceInstance.parse_bytes (buffer : List Nat) : Except BlockErr DeviceInstance := do
  let h ← pr (buffer.get? 0)
  let l ← pr (buffer.get? 1)
  pure ⟨h, l⟩

/-- `DcpBlock::parse_block`.  The `(block_length - 2) as usize` of the source
is `u16` arithmetic; its release-build wrapping is modelled by
`if 2 ≤ declared then declared - 2 else declared + 65534`, which agrees
with `(declared + 2^16 - 2) % 2^16` on the whole `u16` range of `declared`
(the value is only consumed by the vendor/name copies, and in a debug
build the underflow case panics there just the same, via the oversized
copy). -/
def DcpBlock.parse_block (buffer : List Nat) : Except BlockErr DcpBlock := do
  let optRaw ← pr (buffer.get? 0)
  let opt ← match BlockOption.fromNat optRaw with
    | some o => Except.ok o
    | none => Except.error .invalidBlockOption
  let sub ← pr (buffer.get? 1)
  let declared ← pr (readU16At buffer 2)
  if opt = .all ∧ sub = 255 then
    pure ⟨.all, declared⟩
  else if buffer.length < 6 then
    Except.error .panic
  else do
    let payload := buffer.drop 6
    let payloadLength := if 2 ≤ declared then declared - 2 else declared + 65534
    match opt with
    | .ip =>
      if sub = 1 then do
        let m ← MacAddress.parse payload
        pure ⟨.ip (.macAddress m), declared⟩
      else if sub = 2 then do
        let p ← IpParameter.parse payload
        pure ⟨.ip (.ipParameter p), declared⟩
      else if sub = 3 then do
        let s ← FullIpSuite.parse payload
        pure ⟨.ip (.fullIpSuite s), declared⟩
      else Except.error .invalidIPSuboption
    | .deviceProperties =>
      if sub = 1 then do
        let dv ← DeviceVendor.parse_bytes payload payloadLength
        pure ⟨.deviceProperties (.deviceVendor dv), declared⟩
      else if sub = 2 then do
        let nos ← NameOfStation.parse_bytes payload payloadLength
        pure ⟨.deviceProperties (.nameOfStation nos), declared⟩
      else if sub = 3 then do
        let id ← DeviceId.parse_bytes payload
        pure ⟨.deviceProperties (.deviceId id), declared⟩
      else if sub = 4 then do
        let raw ← pr (payload.get? 0)
        match DeviceRole.fromNat raw with
        | some dr => pure ⟨.deviceProperties (.deviceRole dr), declared⟩
        | none => Except.error .invalidDeviceRole
      else if sub = 5 then pure ⟨.deviceProperties .deviceOptions, declared⟩
      else if sub = 6 then pure ⟨.deviceProperties .aliasName, declared⟩
      else if sub = 7 then do
        let di ← DeviceInstance.parse_bytes payload
        pure ⟨.deviceProperties (.deviceInstance di), declared⟩
      else if sub = 8 then pure ⟨.deviceProperties .oemDeviceId, declared⟩
      else if sub = 9 then pure ⟨.deviceProperties .standardGateway, declared⟩
      else if sub = 10 then pure ⟨.deviceProperties .rsiProperties, declared⟩
      else Except.error .invalidDevicePropertySuboption
    | _ => Except.error .panic

inductive ParseErr where
  | frameIdError
  | invalidHeaderLength
  | invalidServiceId
  | invalidServiceType
  | panic
  deriving DecidableEq, Repr

/-- Map one `parse_block` outcome the way the `Dcp::parse` loop consumes it:
`.ok()` turns an `Err` into `None`, but a panic aborts everything. -/
def blockOutcome : Except BlockErr DcpBlock → Option (Option DcpBlock)
  | .error .panic => none
  | .error _ => some none
  | .ok b => some (some b)

/-- The block loop of `Dcp::parse`: while the cursor is below the header's
`data_length`, read the declared length at `cursor + 2`, slice
`payload[cursor .. cursor + declared + 4]`, parse it, store the result at
`blocks[count]` (an out-of-bounds store — `count ≥ 32` — panics), and
advance by the block length plus a pad byte when it is odd.

The first argument is recursion fuel, so that the definition is structural
and computable by `rfl`/`decide`.  The loop advances the cursor by at least
4 per iteration, so with the initial fuel `dataLen` (see `Dcp.parse`) the
fuel-exhaustion arm is unreachable: `parseBlocksLoop_fuel` below shows any
fuel `≥ dataLen - start` gives the same result, i.e. fuel is semantically
irrelevant for the actual call. -/
def parseBlocksLoop (payload : List Nat) (dataLen : Nat) :
    Nat → Nat → Nat → List (Option DcpBlock) →
    Except ParseErr (Nat × List (Option DcpBlock))
  | 0, start, count, blocks =>
    if start < dataLen then .error .panic else .ok (count, blocks)
  | fuel + 1, start, count, blocks =>
    if start < dataLen then
      (readU16At payload (start + 2)).elim (.error .panic) (fun declared =>
        if payload.length < start + (declared + 4) then .error .panic
        else
          (blockOutcome (DcpBlock.parse_block
              ((payload.drop start).take (declared + 4)))).elim (.error .panic)
            (fun ob =>
              if count < MAX_DCP_BLOCK_NUMBER then
                parseBlocksLoop payload dataLen fuel
                  (start + (declared + 4) +
                    (if (declared + 4) % 2 = 1 then 1 else 0)) (count + 1)
                  (blocks.set count ob)
              else .error .panic))
    else .ok (count, blocks)

/-- `Dcp::parse`, starting from the raw Ethernet frame bytes.  The
`EthernetFrame` accessors are inlined: `is_vlan` is decided from the first
type word, the FrameID sits at offset 18 (VLAN) or 14, and the DCP payload
starts at 20 (VLAN) or 16.  Callers hold a checked `EthernetFrame`, so
`bytes.length ≥ 16`; the reads below offset 16 use that bound, the VLAN
reads can genuinely leave the buffer and are panic-checked. -/
def Dcp.parse (bytes : List Nat) : Except ParseErr Dcp :=
  let isVlan := readU16At bytes 12 = some 0x8100
  match (if isVlan then readU16At bytes 18 else readU16At bytes 14) with
  | none => .error .panic
  | some fidRaw =>
    match DcpFrameId.fromU16 fidRaw with
    | none => .error .frameIdError
    | some frame_id =>
      let payload := if isVlan then bytes.drop 20 else bytes.drop 16
      if payload.length ≤ 10 then .error .invalidHeaderLength
      else
        match ServiceId.fromNat ((payload.get? 0).getD 0) with
        | none => .error .invalidServiceId
        | some sid =>
          match ServiceType.fromNat ((payload.get? 1).getD 0) with
          | none => .error .invalidServiceType
          | some sty =>
            let header : DcpHeader :=
              ⟨sid, sty, (readU32At payload 2).getD 0, (readU16At payload 6).getD 0,
                (readU16At payload 8).getD 0⟩
            match parseBlocksLoop (payload.drop 10) header.data_length
                header.data_length 0 0 (List.replicate MAX_DCP_BLOCK_NUMBER none) with
            | .error e => .error e
            | .ok (count, blocks) =>
              let ethType := EthType.fromU16
                ((if isVlan then readU16At bytes 16 else readU16At bytes 12).getD 0)
              .ok ⟨bytes.take 6, (bytes.drop 6).take 6, ethType, frame_id, header,
                count, blocks⟩

/- Device state and the request dispatcher, from `src/src/lib.rs` and
`Dcp::handle_frame`. -/

structure IpConfig where
  mac_address : List Nat
  ip_address : List Nat
  subnet_mask : List Nat
  gateway : List Nat
  deriving DecidableEq, Repr

structure Config where
  name_of_station : List Nat
  name_of_station_len : Nat
  device_vendor : List Nat
  device_vendor_len : Nat
  ip_config : IpConfig
  deriving DecidableEq, Repr

structure OutgoingPacket where
  data : List Nat
  length : Nat
  send_at : Nat
  deriving DecidableEq, Repr

/-- The `PNet` state the DCP core touches: the device configuration and the
8-slot outgoing queue.  `interface_updates` is a ghost log: one entry per
`PNet::update_interface` call, recording the ip/mask/gateway the
configuration holds at that call (the source forwards them to the smoltcp
interface, which is outside the core). -/
structure PNet where
  config : Config
  outgoing_packets : List (Option OutgoingPacket)
  interface_updates : List (List Nat × List Nat × List Nat)
  deriving DecidableEq, Repr

/-- `PNet::update_interface` (§ the smoltcp re-bind is recorded as a ghost
event carrying the current ip configuration). -/
def PNet.update_interface (p : PNet) : PNet :=
  { p with interface_updates := p.interface_updates ++
      [(p.config.ip_config.ip_address, p.config.ip_config.subnet_mask,
        p.config.ip_config.gateway)] }

/-- Store a packet in the first free slot; if every slot is taken the packet
is dropped (the `for`/`break` loop of `PNet::queue_packet`). -/
def setFirstFree (slots : List (Option OutgoingPacket)) (p : OutgoingPacket) :
    List (Option OutgoingPacket) :=
  match slots with
  | [] => []
  | none :: rest => some p :: rest
  | some q :: rest => some q :: setFirstFree rest p

/-- `PNet::queue_packet`: the stored `length` is `data.len()` — the length
of the whole fixed-size array, not of the encoded frame. -/
def PNet.queue_packet (pnet : PNet) (data : List Nat) (send_at : Nat) : PNet :=
  { pnet with outgoing_packets :=
      setFirstFree pnet.outgoing_packets ⟨data, data.length, send_at⟩ }

/-- The slot scan of `PNet::send_queued_packets`: due slots (send_at ≤ now)
are handed to `dma().send(p.length, ..)`; a successful send clears the slot,
a failed one keeps it.  `txOk` is the transport's per-slot outcome; the
returned event list records each `send` call as `(length, data)`. -/
def sendLoop (txOk : Nat → Bool) (now : Nat) :
    Nat → List (Option OutgoingPacket) →
    List (Option OutgoingPacket) × List (Nat × List Nat)
  | _, [] => ([], [])
  | i, slot :: rest =>
    let r := sendLoop txOk now (i + 1) rest
    match slot with
    | some p =>
      if p.send_at ≤ now then
        ((if txOk i then none else some p) :: r.1, (p.length, p.data) :: r.2)
      else (some p :: r.1, r.2)
    | none => (none :: r.1, r.2)

/-- `PNet::send_queued_packets`. -/
def PNet.send_queued_packets (pnet : PNet) (txOk : Nat → Bool) (now : Nat) :
    PNet × List (Nat × List Nat) :=
  let r := sendLoop txOk now 0 pnet.outgoing_packets
  ({ pnet with outgoing_packets := r.1 }, r.2)

/-- `Dcp::new_hello_response`: an Identify/Success response to `self`,
addressed back to the request's source, carrying the seven identity blocks
in the source's fixed order.  (`NameOfStation::new` / `DeviceVendor::new`
package the configured array and length unchanged.) -/
def Dcp.new_hello_response (d : Dcp) (pnet : PNet) : Dcp :=
  let h := DcpHeader.new .identify .success d.header.x_id 1
  let r := Dcp.new d.source pnet.config.ip_config.mac_address h .response
  let r := r.add_block (DcpBlock.new (.deviceProperties .deviceOptions))
  let r := r.add_block (DcpBlock.new (.deviceProperties (.nameOfStation
    ⟨pnet.config.name_of_station, pnet.config.name_of_station_len⟩)))
  let r := r.add_block (DcpBlock.new (.deviceProperties (.deviceVendor
    ⟨pnet.config.device_vendor, pnet.config.device_vendor_len⟩)))
  let r := r.add_block (DcpBlock.new (.deviceProperties (.deviceRole .ioDevice)))
  let r := r.add_block (DcpBlock.new (.deviceProperties (.deviceId ⟨0x1337, 0x6969⟩)))
  let r := r.add_block (DcpBlock.new (.deviceProperties (.deviceInstance ⟨0x42, 0x69⟩)))
  r.add_block (DcpBlock.new (.ip (.ipParameter
    ⟨pnet.config.ip_config.ip_address, pnet.config.ip_config.subnet_mask,
      pnet.config.ip_config.gateway⟩)))

/-- One step of the `GetSet` arm of `handle_frame`: `NameOfStation` is
copied into the configuration; `IpParameter`/`FullIpSuite` overwrite the ip
configuration and notify the interface; everything else is ignored. -/
def applySetBlock (pnet : PNet) (ob : Option DcpBlock) : PNet :=
  match ob with
  | none => pnet
  | some blk =>
    match blk.block with
    | .deviceProperties (.nameOfStation ns) =>
      { pnet with config := { pnet.config with
          name_of_station := ns.name, name_of_station_len := ns.length } }
    | .ip (.ipParameter ip) =>
      PNet.update_interface { pnet with config := { pnet.config with
        ip_config := { pnet.config.ip_config with
          ip_address := ip.ip_address, subnet_mask := ip.subnet_mask,
          gateway := ip.gateway } } }
    | .ip (.fullIpSuite s) =>
      PNet.update_interface { pnet with config := { pnet.config with
        ip_config := { pnet.config.ip_config with
          ip_address := s.ip_address, subnet_mask := s.subnet_mask,
          gateway := s.gateway } } }
    | _ => pnet

/-- `Dcp::handle_frame` on the raw frame bytes of a checked `EthernetFrame`.
`none` models a panic (inside `Dcp::parse`, or `encode_into` overrunning the
255-byte response buffer).  A parse `Err` just drops the frame.  A `Request`
to the DCP multicast whose first block is the `All` selector is answered:
the hello response is encoded into a zeroed 255-byte buffer which is queued
at `now + response_delay_time`.  A `GetSet` frame applies every block to the
configuration.  Anything else is ignored. -/
def Dcp.handle_frame (pnet : PNet) (bytes : List Nat) (now : Nat) : Option PNet :=
  match Dcp.parse bytes with
  | .error .panic => none
  | .error _ => some pnet
  | .ok d =>
    match d.frame_id with
    | .request =>
      if d.dst_is_hello ∧ 0 < d.number_of_blocks then
        match d.blocks.get? 0 with
        | some (some hb) =>
          if hb.block = .all then
            let enc := (d.new_hello_response pnet).encodeBytes
            if enc.length ≤ 255 then
              some (pnet.queue_packet (enc ++ List.replicate (255 - enc.length) 0)
                (now + d.response_delay_time))
            else none
          else some pnet
        | _ => some pnet
      else some pnet
    | .getSet => some (d.blocks.foldl applySetBlock pnet)
    | _ => some pnet

/-! ## Helper lemmas about the outgoing queue -/

theorem mem_setFirstFree {slots : List (Option OutgoingPacket)} {p q : OutgoingPacket}
    (h : some q ∈ setFirstFree slots p) : some q ∈ slots ∨ q = p := by
  induction slots with
  | nil => simp [setFirstFree] at h
  | cons s rest ih =>
    match s with
    | none =>
      simp only [setFirstFree, List.mem_cons] at h
      rcases h with h | h
      · exact Or.inr (by simpa using h)
      · exact Or.inl (List.mem_cons_of_mem _ h)
    | some r =>
      simp only [setFirstFree, List.mem_cons] at h
      rcases h with h | h
      · exact Or.inl (by simp [h])
      · rcases ih h with h' | h'
        · exact Or.inl (List.mem_cons_of_mem _ h')
        · exact Or.inr h'

theorem setFirstFree_getElem {slots : List (Option OutgoingPacket)} {p : OutgoingPacket}
    (h : none ∈ slots) : ∃ j : Nat, (setFirstFree slots p).get? j = some (some p) := by
  induction slots with
  | nil => simp at h
  | cons s rest ih =>
    match s with
    | none => exact ⟨0, by simp [setFirstFree]⟩
    | some r =>
      have h' : none ∈ rest := by simpa using h
      obtain ⟨j, hj⟩ := ih h'
      refine ⟨j + 1, ?_⟩
      rw [show setFirstFree (some r :: rest) p = some r :: setFirstFree rest p from rfl,
        List.get?_cons_succ]
      exact hj

theorem setFirstFree_ne {slots : List (Option OutgoingPacket)} {p : OutgoingPacket}
    (h : none ∈ slots) : setFirstFree slots p ≠ slots := by
  induction slots with
  | nil => simp at h
  | cons s rest ih =>
    match s with
    | none => simp [setFirstFree]
    | some r =>
      have h' : none ∈ rest := by simpa using h
      simpa [setFirstFree] using ih h'

theorem setFirstFree_of_full {slots : List (Option OutgoingPacket)} {p : OutgoingPacket}
    (h : ¬ none ∈ slots) : setFirstFree slots p = slots := by
  induction slots with
  | nil => rfl
  | cons s rest ih =>
    match s with
    | none => simp at h
    | some r =>
      have h' : ¬ none ∈ rest := fun hc => h (List.mem_cons_of_mem _ hc)
      simp [setFirstFree, ih h']

theorem sendLoop_events_length {txOk : Nat → Bool} {now : Nat}
    {slots : List (Option OutgoingPacket)}
    (h : ∀ q : OutgoingPacket, some q ∈ slots → q.length = 255) :
    ∀ i, ∀ e ∈ (sendLoop txOk now i slots).2, e.1 = 255 := by
  induction slots with
  | nil => intro i e he; simp [sendLoop] at he
  | cons s rest ih =>
    intro i e he
    have hrest : ∀ q : OutgoingPacket, some q ∈ rest → q.length = 255 :=
      fun q hq => h q (List.mem_cons_of_mem _ hq)
    match s with
    | none =>
      simp only [sendLoop] at he
      exact ih hrest (i + 1) e he
    | some p =>
      simp only [sendLoop] at he
      by_cases hd : p.send_at ≤ now
      · simp only [hd, if_true, List.mem_cons] at he
        rcases he with he | he
        · rw [he]; exact h p (by simp)
        · exact ih hrest (i + 1) e he
      · simp only [hd, if_false] at he
        exact ih hrest (i + 1) e he

/-- Concrete state for witnesses: an all-default device with an empty
8-slot queue. -/
def pnet0 : PNet :=
  ⟨⟨List.replicate 240 0, 4, List.replicate 255 0, 3,
    ⟨[0, 0, 0x23, 0x53, 0x4e, 0xfe], [0, 0, 0, 0], [0, 0, 0, 0], [0, 0, 0, 0]⟩⟩,
    List.replicate 8 none, []⟩

/-! ## Embedding validation against the repository's own test vectors -/

/-- The 64-byte Identify request of the repo test `test_dcp_hello`. -/
def helloPkt : List Nat :=
  [0x01, 0x0e, 0xcf, 0x00, 0x00, 0x00, 0x52, 0x54, 0x00, 0x8a, 0x3b, 0xa5, 0x88, 0x92,
   0xfe, 0xfe, 0x05, 0x00, 0x00, 0x00, 0x00, 0x05, 0x00, 0xc0, 0x00, 0x04, 0xff, 0xff,
   0x00, 0x00, 0x00, 0x00, 0x00, 0x00, 0x00, 0x00, 0x00, 0x00, 0x00, 0x00, 0x00, 0x00,
   0x00, 0x00, 0x00, 0x00, 0x00, 0x00, 0x00, 0x00, 0x00, 0x00, 0x00, 0x00, 0x00, 0x00,
   0x00, 0x00, 0x00, 0x00, 0x00, 0x00, 0x00, 0x00]

example : (Dcp.parse helloPkt).map (fun d => (d.header.service_id, d.header.x_id,
      d.header.response_delay_factor, d.header.data_length, d.number_of_blocks,
      d.blocks.get? 0, d.destination, d.source, d.eth_type, d.frame_id)) =
    .ok (.identify, 5, 192, 4, 1, some (some ⟨.all, 0⟩), [1, 0x0e, 0xcf, 0, 0, 0],
      [0x52, 0x54, 0, 0x8a, 0x3b, 0xa5], .profinet, .request) := by rfl

/-- The 112-byte VLAN-tagged Identify response of the repo test
`test_dcp_response`. -/
def respPkt : List Nat :=
  [0x52, 0x54, 0x00, 0x8a, 0x3b, 0xa5, 0x8c, 0xf3, 0x19, 0x45, 0x01, 0x63, 0x81, 0x00,
   0x00, 0x00, 0x88, 0x92, 0xfe, 0xff, 0x05, 0x01, 0x00, 0x00, 0x01, 0x66, 0x00, 0x00,
   0x00, 0x52, 0x02, 0x05, 0x00, 0x04, 0x00, 0x00, 0x02, 0x07, 0x02, 0x01, 0x00, 0x09,
   0x00, 0x00, 0x53, 0x37, 0x2d, 0x31, 0x32, 0x30, 0x30, 0x00, 0x02, 0x02, 0x00, 0x0c,
   0x00, 0x00, 0x70, 0x6c, 0x63, 0x78, 0x62, 0x31, 0x64, 0x30, 0x65, 0x64, 0x02, 0x03,
   0x00, 0x06, 0x00, 0x00, 0x00, 0x2a, 0x01, 0x0d, 0x02, 0x04, 0x00, 0x04, 0x00, 0x00,
   0x02, 0x00, 0x02, 0x07, 0x00, 0x04, 0x00, 0x00, 0x00, 0x64, 0x01, 0x02, 0x00, 0x0e,
   0x00, 0x01, 0xc0, 0xa8, 0x00, 0x01, 0xff, 0xff, 0xff, 0x00, 0x00, 0x00, 0x00, 0x00]

example : (Dcp.parse respPkt).map (fun d => (d.number_of_blocks,
      (d.blocks.get? 2).map (·.map (·.block)), (d.blocks.get? 6).map (·.map (·.block)))) =
    .ok (7,
      some (some (.deviceProperties (.nameOfStation
        ⟨[0x70, 0x6c, 0x63, 0x78, 0x62, 0x31, 0x64, 0x30, 0x65, 0x64] ++
          List.replicate 230 0, 10⟩))),
      some (some (.ip
        (.ipParameter ⟨[192, 168, 0, 1], [255, 255, 255, 0], [0, 0, 0, 0]⟩)))) := by rfl

/-- The frame of repo test `test_dcp_encoding`: hello FrameID, DeviceOptions
and a 14-byte NameOfStation, encoded into a zeroed 128-byte buffer. -/
def encDcp : Dcp :=
  ((Dcp.new [0x01, 0x0e, 0xcf, 0, 0, 0] [0, 0, 0x23, 0x53, 0x4e, 0xfe]
      (DcpHeader.new .identify .success 1 0) .hello).add_block
    (DcpBlock.new (.deviceProperties .deviceOptions))).add_block
    (DcpBlock.new (.deviceProperties (.nameOfStation
      ⟨[109, 121, 32, 99, 111, 111, 108, 32, 100, 101, 118, 105, 99, 101] ++
        List.replicate 226 0, 14⟩)))

example : encDcp.encodeBytes ++ List.replicate (128 - encDcp.encodeBytes.length) 0 =
    [1, 14, 207, 0, 0, 0, 0, 0, 35, 83, 78, 254, 136, 146, 254, 252, 5, 1, 0, 0, 0, 1,
     0, 0, 0, 28, 2, 5, 0, 4, 0, 0, 2, 7, 2, 2, 0, 16, 0, 0, 109, 121, 32, 99, 111, 111,
     108, 32, 100, 101, 118, 105, 99, 101, 0, 0, 0, 0, 0, 0, 0, 0, 0, 0, 0, 0, 0, 0, 0,
     0, 0, 0, 0, 0, 0, 0, 0, 0, 0, 0, 0, 0, 0, 0, 0, 0, 0, 0, 0, 0, 0, 0, 0, 0, 0, 0, 0,
     0, 0, 0, 0, 0, 0, 0, 0, 0, 0, 0, 0, 0, 0, 0, 0, 0, 0, 0, 0, 0, 0, 0, 0, 0, 0, 0, 0,
     0, 0, 0] := by rfl

/-! ## C2: response delay law -/

/-- C2: for every response-delay factor RDF, `Dcp::response_delay_time`
returns 400 when RDF ≤ 1; for RDF ≥ 2 it returns a multiple of 1000 that is
at least `1 + 10·RDF` and below `1 + 10·RDF + 1000`; in particular RDF = 7
gives 1000 and RDF = 200 gives 3000; and the response queued by
`handle_frame` carries the send-at timestamp `now + delay`. -/
theorem c2_response_delay_law :
    (∀ d : Dcp, d.header.response_delay_factor ≤ 1 → d.response_delay_time = 400) ∧
    (∀ d : Dcp, 2 ≤ d.header.response_delay_factor →
      d.response_delay_time % 1000 = 0 ∧
      1 + 10 * d.header.response_delay_factor ≤ d.response_delay_time ∧
      d.response_delay_time < 1 + 10 * d.header.response_delay_factor + 1000) ∧
    (∀ d : Dcp, d.header.response_delay_factor = 7 → d.response_delay_time = 1000) ∧
    (∀ d : Dcp, d.header.response_delay_factor = 200 → d.response_delay_time = 3000) ∧
    (∀ (pnet : PNet) (bytes : List Nat) (now : Nat) (d : Dcp) (hb : DcpBlock),
      Dcp.parse bytes = .ok d → d.frame_id = .request → d.dst_is_hello = true →
      0 < d.number_of_blocks → d.blocks.get? 0 = some (some hb) → hb.block = .all →
      (d.new_hello_response pnet).encodeBytes.length ≤ 255 →
      none ∈ pnet.outgoing_packets →
      ∃ (p' : PNet) (j : Nat) (buf : List Nat),
        Dcp.handle_frame pnet bytes now = some p' ∧
        p'.outgoing_packets.get? j =
          some (some ⟨buf, buf.length, now + d.response_delay_time⟩)) := by
  refine ⟨?_, ?_, ?_, ?_, ?_⟩
  · intro d h
    simp [Dcp.response_delay_time, h]
  · intro d h
    have h1 : ¬ d.header.response_delay_factor ≤ 1 := by omega
    simp only [Dcp.response_delay_time, h1, if_false]
    omega
  · intro d h
    simp [Dcp.response_delay_time, h]
  · intro d h
    simp [Dcp.response_delay_time, h]
  · intro pnet bytes now d hb hparse hfid hdst hcount hblk hall hfits hfree
    have hblk' := hblk
    rw [List.get?_eq_getElem?] at hblk'
    have hmain : Dcp.handle_frame pnet bytes now =
        some (pnet.queue_packet
          ((d.new_hello_response pnet).encodeBytes ++
            List.replicate (255 - (d.new_hello_response pnet).encodeBytes.length) 0)
          (now + d.response_delay_time)) := by
      simp [Dcp.handle_frame, hparse, hfid, hdst, hcount, hblk', hall, hfits]
    obtain ⟨j, hj⟩ := @setFirstFree_getElem pnet.outgoing_packets
      ⟨(d.new_hello_response pnet).encodeBytes ++
          List.replicate (255 - (d.new_hello_response pnet).encodeBytes.length) 0,
        ((d.new_hello_response pnet).encodeBytes ++
          List.replicate (255 - (d.new_hello_response pnet).encodeBytes.length) 0).length,
        now + d.response_delay_time⟩ hfree
    exact ⟨_, j, _, hmain, hj⟩

/-- A request `Dcp` with a chosen response-delay factor, for witnesses. -/
def mkRdf (n : Nat) : Dcp :=
  Dcp.new [1, 14, 207, 0, 0, 0] [82, 84, 0, 138, 59, 165]
    (DcpHeader.new .identify .request 5 n) .request

/-- The parse result of `helloPkt` (RDF = 192), spelled out. -/
def helloDcp : Dcp :=
  ⟨[1, 14, 207, 0, 0, 0], [82, 84, 0, 138, 59, 165], .profinet, .request,
    ⟨.identify, .request, 5, 192, 4⟩, 1, some ⟨.all, 0⟩ :: List.replicate 31 none⟩

/-- Witness for C2 at RDF = 0, 192, 7 and 200, plus the scheduling part on
the repository's own 64-byte Identify request (RDF = 192, so the delay is
round_up(1 + 1920) = 2000). -/
theorem c2_response_delay_law_witness :
    (mkRdf 0).response_delay_time = 400 ∧
    ((mkRdf 192).response_delay_time % 1000 = 0 ∧
      1 + 10 * (mkRdf 192).header.response_delay_factor ≤ (mkRdf 192).response_delay_time ∧
      (mkRdf 192).response_delay_time <
        1 + 10 * (mkRdf 192).header.response_delay_factor + 1000) ∧
    (mkRdf 7).response_delay_time = 1000 ∧
    (mkRdf 200).response_delay_time = 3000 ∧
    (∃ (p' : PNet) (j : Nat) (buf : List Nat),
      Dcp.handle_frame pnet0 helloPkt 1000 = some p' ∧
      p'.outgoing_packets.get? j =
        some (some ⟨buf, buf.length, 1000 + helloDcp.response_delay_time⟩)) := by
  refine ⟨c2_response_delay_law.1 (mkRdf 0) (by decide),
    c2_response_delay_law.2.1 (mkRdf 192) (by decide),
    c2_response_delay_law.2.2.1 (mkRdf 7) rfl,
    c2_response_delay_law.2.2.2.1 (mkRdf 200) rfl, ?_⟩
  have hparse : Dcp.parse helloPkt = .ok helloDcp := by rfl
  have hcount : 0 < helloDcp.number_of_blocks := Nat.zero_lt_one
  have hfits : (helloDcp.new_hello_response pnet0).encodeBytes.length ≤ 255 :=
    of_decide_eq_true rfl
  have hfree : none ∈ pnet0.outgoing_packets := of_decide_eq_true rfl
  exact c2_response_delay_law.2.2.2.2 pnet0 helloPkt 1000 helloDcp
    (⟨.all, 0⟩ : DcpBlock) hparse rfl rfl hcount rfl rfl hfits hfree

/-! ## C3: shape of the Identify (hello) response -/

/-- C3: for every parsed request and device state, `new_hello_response`
builds a frame with FrameID = Response (0xFEFF), ServiceID = Identify,
ServiceType = Success, the request's XID, source MAC = the device MAC,
destination MAC = the request's source MAC, and exactly these blocks in
this order: DeviceOptions, NameOfStation, DeviceVendor, DeviceRole,
DeviceId, DeviceInstance, IpParameter. -/
theorem c3_hello_response_shape (d : Dcp) (pnet : PNet) :
    (d.new_hello_response pnet).frame_id = .response ∧
    (d.new_hello_response pnet).frame_id.toU16 = 0xfeff ∧
    (d.new_hello_response pnet).header.service_id = .identify ∧
    (d.new_hello_response pnet).header.service_type = .success ∧
    (d.new_hello_response pnet).header.x_id = d.header.x_id ∧
    (d.new_hello_response pnet).source = pnet.config.ip_config.mac_address ∧
    (d.new_hello_response pnet).destination = d.source ∧
    (d.new_hello_response pnet).number_of_blocks = 7 ∧
    ((d.new_hello_response pnet).blocks.filterMap id).map (·.block) =
      [.deviceProperties .deviceOptions,
       .deviceProperties (.nameOfStation
         ⟨pnet.config.name_of_station, pnet.config.name_of_station_len⟩),
       .deviceProperties (.deviceVendor
         ⟨pnet.config.device_vendor, pnet.config.device_vendor_len⟩),
       .deviceProperties (.deviceRole .ioDevice),
       .deviceProperties (.deviceId ⟨0x1337, 0x6969⟩),
       .deviceProperties (.deviceInstance ⟨0x42, 0x69⟩),
       .ip (.ipParameter ⟨pnet.config.ip_config.ip_address,
         pnet.config.ip_config.subnet_mask, pnet.config.ip_config.gateway⟩)] :=
  ⟨rfl, rfl, rfl, rfl, rfl, rfl, rfl, rfl, rfl⟩

/-! ## C10: queued packets always carry length 255 -/

/-- C10: `PNet::queue_packet` stores `length = data.len() = 255` (the whole
fixed-size buffer, not the encoded frame size), and `send_queued_packets`
hands every due packet to the transport's `send` with that length. -/
theorem c10_queue_length_255 :
    (∀ (pnet : PNet) (data : List Nat) (send_at : Nat), data.length = 255 →
      ∀ q : OutgoingPacket,
        some q ∈ (pnet.queue_packet data send_at).outgoing_packets →
        some q ∈ pnet.outgoing_packets ∨
          (q.length = 255 ∧ q.data = data ∧ q.send_at = send_at)) ∧
    (∀ (pnet : PNet) (txOk : Nat → Bool) (now : Nat),
      (∀ q : OutgoingPacket, some q ∈ pnet.outgoing_packets → q.length = 255) →
      ∀ e ∈ (pnet.send_queued_packets txOk now).2, e.1 = 255) := by
  constructor
  · intro pnet data send_at hlen q hq
    rcases mem_setFirstFree hq with h | h
    · exact Or.inl h
    · exact Or.inr (by simp [h, hlen])
  · intro pnet txOk now hall e he
    exact sendLoop_events_length hall 0 e he

/-- Witness for C10 at a concrete queue and packet. -/
theorem c10_queue_length_255_witness :
    (some (⟨List.replicate 255 7, 255, 17⟩ : OutgoingPacket) ∈
        (pnet0.queue_packet (List.replicate 255 7) 17).outgoing_packets →
      some (⟨List.replicate 255 7, 255, 17⟩ : OutgoingPacket) ∈ pnet0.outgoing_packets ∨
        ((255 : Nat) = 255 ∧ List.replicate 255 7 = List.replicate 255 7 ∧ (17 : Nat) = 17)) ∧
    ((∀ q : OutgoingPacket, some q ∈ pnet0.outgoing_packets → q.length = 255) →
      ∀ e ∈ (pnet0.send_queued_packets (fun _ => true) 99).2, e.1 = 255) :=
  ⟨fun hq => c10_queue_length_255.1 pnet0 (List.replicate 255 7) 17 (List.length_replicate 255 7)
      ⟨List.replicate 255 7, 255, 17⟩ hq,
    fun hall => c10_queue_length_255.2 pnet0 (fun _ => true) 99 hall⟩

/-! ## C1: the parse loop is not bounded by MAX_DCP_BLOCK_NUMBER -/

/-- A 158-byte frame whose DCP header declares `DataLength = 132`, followed
by 33 minimal blocks (each: option 0, suboption 0, declared length 0, so the
loop advances by 4).  `Dcp::parse` has no `block_number <
MAX_DCP_BLOCK_NUMBER` guard: on the 33rd iteration it executes
`blocks[32] = ...` on the `[Option<DcpBlock>; 32]` array — an out-of-bounds
write, i.e. a panic. -/
def tooManyFrame : List Nat :=
  [1, 14, 207, 0, 0, 0] ++ [82, 84, 0, 138, 59, 165] ++ [0x88, 0x92, 0xfe, 0xfe] ++
    [5, 0, 0, 0, 0, 5, 0, 0, 0, 132] ++ List.replicate 132 0

/-- The same frame with `DataLength = 128` (32 blocks): parsed without
incident, filling all 32 slots. -/
def boundedFrame : List Nat :=
  [1, 14, 207, 0, 0, 0] ++ [82, 84, 0, 138, 59, 165] ++ [0x88, 0x92, 0xfe, 0xfe] ++
    [5, 0, 0, 0, 0, 5, 0, 0, 0, 128] ++ List.replicate 132 0

/-- C1: the claim says that after `MAX_DCP_BLOCK_NUMBER = 32` block parses
with the cursor still below DataLength, `Dcp::parse` returns a
`TooManyBlocks` error "rather than failing any other way".  The code has no
such guard and no such error value: on `tooManyFrame` (≤ 1500 bytes) the
33rd loop iteration writes `blocks[32]`, out of bounds — a panic, not an
error return.  With exactly 32 blocks (`boundedFrame`) parsing succeeds. -/
theorem c1_parse_block_bound_code_bug :
    Dcp.parse tooManyFrame = .error .panic ∧
    (Dcp.parse boundedFrame).map (fun d => d.number_of_blocks) = .ok 32 := by
  exact ⟨by rfl, by rfl⟩

/-! ## C5: DataLength bookkeeping of `Dcp::new` / `add_block` -/

/-- Claim C5's notion of a block's on-wire length: the 4-byte
option/suboption/length prefix plus the body (`Block.blockLen` — which
already includes the 2-byte BlockInfo word), rounded up to even for the pad
byte.  `(DcpBlock.new b).block_length = b.onWireLen` holds by definition. -/
def Block.onWireLen (b : Block) : Nat :=
  if (b.blockLen + 4) % 2 = 1 then b.blockLen + 4 + 1 else b.blockLen + 4

/-- Length wellformedness of a block value: the vendor/name length fields
fit their fixed arrays, as every constructor in the source guarantees. -/
def Block.lenWf : Block → Prop
  | .deviceProperties (.deviceVendor dv) => dv.length ≤ 255
  | .deviceProperties (.nameOfStation nos) => nos.length ≤ 240
  | _ => True

theorem onWireLen_le (b : Block) (h : b.lenWf) : b.onWireLen ≤ 262 := by
  rcases b with bip | bdp | _
  · rcases bip <;>
      simp [Block.onWireLen, Block.blockLen, IpBlock.blockLen, MacAddress.blockLen,
        IpParameter.blockLen, FullIpSuite.blockLen]
  · rcases bdp <;>
      simp_all [Block.onWireLen, Block.blockLen, Block.lenWf,
        DevicePropertiesBlock.blockLen] <;> split_ifs <;> omega
  · simp [Block.onWireLen, Block.blockLen]

/-- C5 counterexample: `Dcp::new` stores the caller's header verbatim, so a
`Dcp` created from a header whose `data_length` is already `1` (as any
parsed header can be) violates the claimed invariant before a single
`add_block` call: its `data_length` is 1 while its stored blocks' on-wire
lengths sum to 0. -/
theorem c5_data_length_counterexample :
    (Dcp.new [0, 0, 0, 0, 0, 0] [0, 0, 0, 0, 0, 0] ⟨.identify, .request, 0, 0, 1⟩
        .request).header.data_length ≠
      (((Dcp.new [0, 0, 0, 0, 0, 0] [0, 0, 0, 0, 0, 0] ⟨.identify, .request, 0, 0, 1⟩
        .request).blocks.filterMap id).map (·.block_length)).sum := by decide

theorem addBlocks_data_length (bs : List Block) (d : Dcp)
    (hbound : d.header.data_length + (bs.map Block.onWireLen).sum ≤ 65535) :
    (bs.foldl (fun a b => a.add_block (DcpBlock.new b)) d).header.data_length =
      d.header.data_length + (bs.map Block.onWireLen).sum := by
  induction bs generalizing d with
  | nil => simp
  | cons b rest ih =>
    have hb : (d.add_block (DcpBlock.new b)).header.data_length =
        d.header.data_length + b.onWireLen := by
      have hlt : d.header.data_length + b.onWireLen < 65536 := by
        simp only [List.map_cons, List.sum_cons] at hbound
        omega
      show (d.header.data_length + (DcpBlock.new b).block_length) % 65536 = _
      have hbl : (DcpBlock.new b).block_length = b.onWireLen := rfl
      rw [hbl]
      exact Nat.mod_eq_of_lt hlt
    have hbound' : (d.add_block (DcpBlock.new b)).header.data_length +
        (rest.map Block.onWireLen).sum ≤ 65535 := by
      rw [hb]
      simp only [List.map_cons, List.sum_cons] at hbound
      omega
    simp only [List.foldl_cons]
    rw [ih _ hbound', hb]
    simp only [List.map_cons, List.sum_cons]
    omega

/-- C5 amended: starting from a header whose `data_length` is `0` — which is
what `DcpHeader::new` always produces — and adding at most 32 wellformed
blocks (beyond 32 the Rust array write panics), the header's `data_length`
equals the sum of the stored blocks' on-wire lengths (4-byte prefix + body,
rounded up to even for the pad byte). -/
theorem c5_data_length_amended (dst src : List Nat) (sid : ServiceId)
    (sty : ServiceType) (xid rd : Nat) (fid : DcpFrameId) (bs : List Block)
    (hwf : ∀ b ∈ bs, b.lenWf) (hn : bs.length ≤ 32) :
    (bs.foldl (fun a b => a.add_block (DcpBlock.new b))
        (Dcp.new dst src (DcpHeader.new sid sty xid rd) fid)).header.data_length =
      (bs.map Block.onWireLen).sum := by
  have hsum : (bs.map Block.onWireLen).sum ≤ 32 * 262 := by
    calc (bs.map Block.onWireLen).sum ≤ (bs.map Block.onWireLen).length * 262 := by
          apply List.sum_le_card_nsmul
          intro x hx
          obtain ⟨b, hb, rfl⟩ := List.mem_map.mp hx
          exact onWireLen_le b (hwf b hb)
      _ ≤ 32 * 262 := by
          rw [List.length_map]
          exact Nat.mul_le_mul_right 262 hn
  have h0 : (Dcp.new dst src (DcpHeader.new sid sty xid rd) fid).header.data_length = 0 :=
    rfl
  rw [addBlocks_data_length bs _ (by rw [h0]; omega), h0]
  omega

/-- Witness for C5: two blocks (All and DeviceOptions) added to a fresh
frame give `data_length = 4 + 8 = 12`. -/
theorem c5_data_length_amended_witness :
    ([Block.all, .deviceProperties .deviceOptions].foldl
        (fun a b => a.add_block (DcpBlock.new b))
        (Dcp.new [1, 14, 207, 0, 0, 0] [9, 9, 9, 9, 9, 9]
          (DcpHeader.new .identify .success 1 0) .response)).header.data_length =
      ([Block.all, .deviceProperties .deviceOptions].map Block.onWireLen).sum :=
  c5_data_length_amended [1, 14, 207, 0, 0, 0] [9, 9, 9, 9, 9, 9] .identify .success 1 0
    .response [Block.all, .deviceProperties .deviceOptions]
    (by intro b hb; fin_cases hb <;> trivial) (by decide)

/-! ## C8: the BlockInfo word of encoded and parsed IP blocks -/

/-- A concrete Identify request (multicast destination, Identify/Request
header) used to build responses in counterexamples. -/
def dReq0 : Dcp :=
  Dcp.new DCP_MAC_HELLO_ADDRESS [2, 18, 35, 83, 78, 250]
    (DcpHeader.new .identify .request 0x166 0) .request

/-- C8 counterexample: `pnet0` has ip = mask = gateway = 0.0.0.0, so by the
claim the IpParameter block of its Identify response must carry BlockInfo
= 0 (IpNotSet).  But `IpBlock::encode_into` writes the constant `1` as the
BlockInfo word of every IP-group block: in the encoded response the word at
offset 84 (= offset 4 inside the IpParameter block, which starts at 80 after
the six device-property blocks) is 1, and so is the word of the directly
encoded all-zero IpParameter block. -/
theorem c8_blockinfo_counterexample :
    pnet0.config.ip_config.ip_address = [0, 0, 0, 0] ∧
    pnet0.config.ip_config.subnet_mask = [0, 0, 0, 0] ∧
    pnet0.config.ip_config.gateway = [0, 0, 0, 0] ∧
    ((dReq0.new_hello_response pnet0).blocks.get? 6).map (·.map (·.block)) =
      some (some (.ip (.ipParameter ⟨[0, 0, 0, 0], [0, 0, 0, 0], [0, 0, 0, 0]⟩))) ∧
    readU16At (dReq0.new_hello_response pnet0).encodeBytes 84 = some 1 ∧
    readU16At (DcpBlock.new (.ip (.ipParameter
      ⟨[0, 0, 0, 0], [0, 0, 0, 0], [0, 0, 0, 0]⟩))).encodeBytes 4 = some 1 ∧
    (1 : Nat) ≠ 0 := by
  refine ⟨rfl, rfl, rfl, by rfl, by rfl, by rfl, by decide⟩

/-- C8 amended: the encoder writes a constant BlockInfo word — `1`
(IpSetViaSetRequest's numeric value) for every IP-group block regardless of
the ip/mask/gateway values, and `0` for every DeviceProperties block; and
the parser never reads the BlockInfo word at all (the typed payload starts
at offset 6), so an IpParameter parsed from a Set request carries no
BlockInfo and the result is independent of those two bytes. -/
theorem c8_blockinfo_amended :
    (∀ b : IpBlock, readU16At (DcpBlock.new (.ip b)).encodeBytes 4 = some 1) ∧
    (∀ b : DevicePropertiesBlock,
      readU16At (DcpBlock.new (.deviceProperties b)).encodeBytes 4 = some 0) ∧
    (∀ (c d x y x' y' : Nat) (rest : List Nat),
      DcpBlock.parse_block (1 :: 2 :: c :: d :: x :: y :: rest) =
        DcpBlock.parse_block (1 :: 2 :: c :: d :: x' :: y' :: rest)) := by
  refine ⟨?_, ?_, ?_⟩
  · rintro (m | p | s) <;> rfl
  · rintro (dv | nos | id | dr | _ | _ | di | _ | _ | _) <;> rfl
  · intro c d x y x' y' rest
    simp [DcpBlock.parse_block, pr, readU16At]

/-! ## C9: a block with option 0x7E -/

/-- A 30-byte Identify request to the DCP multicast whose single block has
option byte 0x7E (not a registered `BlockOption`). -/
def unknownOptionFrame : List Nat :=
  [1, 14, 207, 0, 0, 0] ++ [9, 9, 9, 9, 9, 9] ++ [0x88, 0x92, 0xfe, 0xfe] ++
    [5, 0, 0, 0, 0, 1, 0, 0, 0, 4] ++ [0x7e, 0, 0, 0]

/-- C9 counterexample: the claim says parsing a frame containing a 0x7E
block "yields the UnknownOption error".  `Dcp::parse` does not: the loop
discards the block error with `.ok()` and the frame parse succeeds. -/
theorem c9_unknown_option_counterexample :
    (Dcp.parse unknownOptionFrame).isOk = true := by rfl

/-- C9 amended: `DcpBlock::parse_block` itself rejects option 0x7E with
`InvalidBlockOption` (the spec's UnknownOption), but `Dcp::parse` swallows
the error, storing `None` in the block slot and returning `Ok`; the
dispatcher then finds no `All` block, so no response is built and the
outgoing queue — and all other `PNet` state — is unchanged. -/
theorem c9_unknown_option_amended :
    (∀ rest : List Nat,
      DcpBlock.parse_block (0x7e :: rest) = .error .invalidBlockOption) ∧
    (Dcp.parse unknownOptionFrame).map
      (fun d => (d.number_of_blocks, d.blocks.get? 0, d.frame_id, d.dst_is_hello)) =
      .ok (1, some none, .request, true) ∧
    Dcp.handle_frame pnet0 unknownOptionFrame 44 = some pnet0 := by
  exact ⟨fun rest => rfl, by rfl, by rfl⟩

/-! ## C7: the Set (GetSet) dispatch -/

/-- The ip/mask/gateway triple a block slot commits to the configuration
(and to `update_interface`), if any. -/
def setIpTriple (ob : Option DcpBlock) : Option (List Nat × List Nat × List Nat) :=
  match ob with
  | some blk =>
    match blk.block with
    | .ip (.ipParameter ip) => some (ip.ip_address, ip.subnet_mask, ip.gateway)
    | .ip (.fullIpSuite s) => some (s.ip_address, s.subnet_mask, s.gateway)
    | _ => none
  | none => none

/-- The station name a block slot writes into the configuration, if any. -/
def setNameOf (ob : Option DcpBlock) : Option NameOfStation :=
  match ob with
  | some blk =>
    match blk.block with
    | .deviceProperties (.nameOfStation ns) => some ns
    | _ => none
  | none => none

theorem getLast?_elim_cons {α β : Type} (a : α) (l : List α) (i : β) (f : α → β) :
    ((a :: l).getLast?.elim i f) = (l.getLast?.elim (f a) f) := by
  cases l with
  | nil => rfl
  | cons b t =>
    rw [List.getLast?_cons_cons]
    cases h : (b :: t).getLast? with
    | none => exact absurd (List.getLast?_eq_none_iff.mp h) (by simp)
    | some x => rfl

/-- What one pass of the GetSet fold does, for any slot list and any start
state: the outgoing queue, the device-vendor fields and the MAC are
untouched; `update_interface` fires exactly once per IpParameter/FullIpSuite
block, in block order, each time with that block's ip/mask/gateway; and the
final station-name and ip fields hold the last such block's values (or the
originals if there is none). -/
theorem applySetFold (blocks : List (Option DcpBlock)) (pnet : PNet) :
    (blocks.foldl applySetBlock pnet).outgoing_packets = pnet.outgoing_packets ∧
    (blocks.foldl applySetBlock pnet).config.device_vendor = pnet.config.device_vendor ∧
    (blocks.foldl applySetBlock pnet).config.device_vendor_len =
      pnet.config.device_vendor_len ∧
    (blocks.foldl applySetBlock pnet).config.ip_config.mac_address =
      pnet.config.ip_config.mac_address ∧
    (blocks.foldl applySetBlock pnet).interface_updates =
      pnet.interface_updates ++ blocks.filterMap setIpTriple ∧
    ((blocks.foldl applySetBlock pnet).config.name_of_station,
      (blocks.foldl applySetBlock pnet).config.name_of_station_len) =
      (blocks.filterMap setNameOf).getLast?.elim
        (pnet.config.name_of_station, pnet.config.name_of_station_len)
        (fun ns => (ns.name, ns.length)) ∧
    ((blocks.foldl applySetBlock pnet).config.ip_config.ip_address,
      (blocks.foldl applySetBlock pnet).config.ip_config.subnet_mask,
      (blocks.foldl applySetBlock pnet).config.ip_config.gateway) =
      (blocks.filterMap setIpTriple).getLast?.elim
        (pnet.config.ip_config.ip_address, pnet.config.ip_config.subnet_mask,
          pnet.config.ip_config.gateway) id := by
  induction blocks generalizing pnet with
  | nil => simp
  | cons ob rest ih =>
    rcases ob with _ | ⟨blk, bl⟩
    · simpa [applySetBlock, setIpTriple, setNameOf] using ih pnet
    · rcases blk with bip | bdp | _
      · rcases bip with m | ip | s
        · simpa [applySetBlock, setIpTriple, setNameOf] using ih pnet
        · have h := ih (applySetBlock pnet (some ⟨.ip (.ipParameter ip), bl⟩))
          simp only [applySetBlock, PNet.update_interface] at h
          simp only [List.foldl_cons, applySetBlock, PNet.update_interface]
          refine ⟨h.1, h.2.1, h.2.2.1, h.2.2.2.1, ?_, ?_, ?_⟩
          · rw [h.2.2.2.2.1]
            simp [setIpTriple]
          · rw [h.2.2.2.2.2.1]
            simp [setNameOf]
          · rw [h.2.2.2.2.2.2]
            simp only [List.filterMap_cons]
            rw [show setIpTriple (some ⟨.ip (.ipParameter ip), bl⟩) =
              some (ip.ip_address, ip.subnet_mask, ip.gateway) from rfl]
            rw [getLast?_elim_cons]
            rfl
        · have h := ih (applySetBlock pnet (some ⟨.ip (.fullIpSuite s), bl⟩))
          simp only [applySetBlock, PNet.update_interface] at h
          simp only [List.foldl_cons, applySetBlock, PNet.update_interface]
          refine ⟨h.1, h.2.1, h.2.2.1, h.2.2.2.1, ?_, ?_, ?_⟩
          · rw [h.2.2.2.2.1]
            simp [setIpTriple]
          · rw [h.2.2.2.2.2.1]
            simp [setNameOf]
          · rw [h.2.2.2.2.2.2]
            simp only [List.filterMap_cons]
            rw [show setIpTriple (some ⟨.ip (.fullIpSuite s), bl⟩) =
              some (s.ip_address, s.subnet_mask, s.gateway) from rfl]
            rw [getLast?_elim_cons]
            rfl
      · rcases bdp with dv | ns | id | dr | _ | _ | di | _ | _ | _
        case nameOfStation =>
          have h := ih (applySetBlock pnet (some ⟨.deviceProperties (.nameOfStation ns), bl⟩))
          simp only [applySetBlock] at h
          simp only [List.foldl_cons, applySetBlock]
          refine ⟨h.1, h.2.1, h.2.2.1, h.2.2.2.1, ?_, ?_, ?_⟩
          · rw [h.2.2.2.2.1]
            simp [setIpTriple]
          · rw [h.2.2.2.2.2.1]
            simp only [List.filterMap_cons]
            rw [show setNameOf (some ⟨.deviceProperties (.nameOfStation ns), bl⟩) =
              some ns from rfl]
            rw [getLast?_elim_cons]
          · rw [h.2.2.2.2.2.2]
            simp [setIpTriple]
        all_goals simpa [applySetBlock, setIpTriple, setNameOf] using ih pnet
      · simpa [applySetBlock, setIpTriple, setNameOf] using ih pnet

/-- C7: dispatching a parsed GetSet frame with ServiceID = Set applies every
block to the identity state: each NameOfStation block's bytes and length are
copied in (the last one is what remains), each IpParameter/FullIpSuite
block's ip/mask/gateway are copied in with `update_interface` invoked
exactly once per such block with those values, and the device-vendor
fields, the MAC and the outgoing queue are unchanged. -/
theorem c7_set_dispatch (pnet : PNet) (bytes : List Nat) (now : Nat) (d : Dcp)
    (hparse : Dcp.parse bytes = .ok d) (hfid : d.frame_id = .getSet)
    (_hsid : d.header.service_id = .set) :
    ∃ p', Dcp.handle_frame pnet bytes now = some p' ∧
      p'.outgoing_packets = pnet.outgoing_packets ∧
      p'.config.device_vendor = pnet.config.device_vendor ∧
      p'.config.device_vendor_len = pnet.config.device_vendor_len ∧
      p'.config.ip_config.mac_address = pnet.config.ip_config.mac_address ∧
      p'.interface_updates = pnet.interface_updates ++ d.blocks.filterMap setIpTriple ∧
      (p'.config.name_of_station, p'.config.name_of_station_len) =
        (d.blocks.filterMap setNameOf).getLast?.elim
          (pnet.config.name_of_station, pnet.config.name_of_station_len)
          (fun ns => (ns.name, ns.length)) ∧
      (p'.config.ip_config.ip_address, p'.config.ip_config.subnet_mask,
        p'.config.ip_config.gateway) =
        (d.blocks.filterMap setIpTriple).getLast?.elim
          (pnet.config.ip_config.ip_address, pnet.config.ip_config.subnet_mask,
            pnet.config.ip_config.gateway) id := by
  refine ⟨d.blocks.foldl applySetBlock pnet, ?_, applySetFold d.blocks pnet⟩
  simp [Dcp.handle_frame, hparse, hfid]

/-- The spec's Set-IP scenario: a GetSet(Set) frame carrying
IpParameter{192.168.1.50, 255.255.255.0, 192.168.1.1}. -/
def setIpFrame : List Nat :=
  [0, 0, 35, 83, 78, 254] ++ [82, 84, 0, 138, 59, 165] ++ [0x88, 0x92, 0xfe, 0xfd] ++
    [4, 0, 0, 0, 0, 7, 0, 0, 0, 18] ++
    [1, 2, 0, 14, 0, 1, 192, 168, 1, 50, 255, 255, 255, 0, 192, 168, 1, 1]

/-- The parse result of `setIpFrame`, spelled out. -/
def setIpDcp : Dcp :=
  ⟨[0, 0, 35, 83, 78, 254], [82, 84, 0, 138, 59, 165], .profinet, .getSet,
    ⟨.set, .request, 7, 0, 18⟩, 1,
    some ⟨.ip (.ipParameter ⟨[192, 168, 1, 50], [255, 255, 255, 0], [192, 168, 1, 1]⟩), 14⟩ ::
      List.replicate 31 none⟩

/-- Witness for C7: after dispatching `setIpFrame` against `pnet0`, the
result has the new ip configuration and exactly one `update_interface`
event carrying (192.168.1.50, 255.255.255.0, 192.168.1.1). -/
theorem c7_set_dispatch_witness :
    ∃ p', Dcp.handle_frame pnet0 setIpFrame 3 = some p' ∧
      p'.outgoing_packets = pnet0.outgoing_packets ∧
      p'.config.device_vendor = pnet0.config.device_vendor ∧
      p'.config.device_vendor_len = pnet0.config.device_vendor_len ∧
      p'.config.ip_config.mac_address = pnet0.config.ip_config.mac_address ∧
      p'.interface_updates = pnet0.interface_updates ++
        setIpDcp.blocks.filterMap setIpTriple ∧
      (p'.config.name_of_station, p'.config.name_of_station_len) =
        (setIpDcp.blocks.filterMap setNameOf).getLast?.elim
          (pnet0.config.name_of_station, pnet0.config.name_of_station_len)
          (fun ns => (ns.name, ns.length)) ∧
      (p'.config.ip_config.ip_address, p'.config.ip_config.subnet_mask,
        p'.config.ip_config.gateway) =
        (setIpDcp.blocks.filterMap setIpTriple).getLast?.elim
          (pnet0.config.ip_config.ip_address, pnet0.config.ip_config.subnet_mask,
            pnet0.config.ip_config.gateway) id :=
  c7_set_dispatch pnet0 setIpFrame 3 setIpDcp (by rfl) rfl rfl

/-! ## C6: when `handle_frame` enqueues a response -/

/-- An Identify-style request whose ServiceID byte is 3 (`Get`), not 5
(`Identify`): multicast destination, FrameID 0xFEFE, one `All` block. -/
def getServiceFrame : List Nat :=
  [1, 14, 207, 0, 0, 0] ++ [82, 84, 0, 138, 59, 165] ++ [0x88, 0x92, 0xfe, 0xfe] ++
    [3, 0, 0, 0, 0, 9, 0, 0, 0, 4] ++ [0xff, 0xff, 0, 0]

/-- C6 counterexample: `handle_frame` never checks the ServiceID.
`getServiceFrame` parses with ServiceID = Get — by the claim no response
may be enqueued — yet the queue changes: the apparatus enqueues a response
to it exactly as to an Identify request. -/
theorem c6_enqueue_counterexample :
    (Dcp.parse getServiceFrame).map (fun d => d.header.service_id) = .ok .get ∧
    (Dcp.handle_frame pnet0 getServiceFrame 0).map
      (fun p => decide (p.outgoing_packets = pnet0.outgoing_packets)) = some false := by
  exact ⟨by rfl, by rfl⟩

/-- The configuration invariants the Rust types and constructors maintain
(array sizes 240/255/6 and in-range lengths); inside them the list model of
`encode_into` agrees with the source for every reachable state. -/
def PNet.wfConfig (p : PNet) : Prop :=
  p.config.name_of_station.length = 240 ∧ p.config.name_of_station_len ≤ 240 ∧
  p.config.device_vendor.length = 255 ∧ p.config.device_vendor_len ≤ 255 ∧
  p.config.ip_config.mac_address.length = 6

/-- C6 amended: `handle_frame` builds and enqueues a response exactly when
the frame parses, has FrameID = Request (0xFEFE), destination MAC equal to
the DCP multicast 01:0E:CF:00:00:00, and its **first** block slot holds the
`All` selector — the ServiceID is never examined (Get/Set/Hello requests to
the multicast with a leading All block are answered too, refuting the
claim's ServiceID = Identify condition), later blocks are never examined,
and the response additionally requires a free queue slot and a response
that fits the 255-byte buffer (otherwise it is dropped / the encode
panics). -/
theorem c6_enqueue_iff_amended (pnet : PNet) (bytes : List Nat) (now : Nat)
    (_hwf : pnet.wfConfig) :
    (∃ p', Dcp.handle_frame pnet bytes now = some p' ∧
      p'.outgoing_packets ≠ pnet.outgoing_packets) ↔
    (∃ d hb, Dcp.parse bytes = .ok d ∧ d.frame_id = .request ∧
      d.dst_is_hello = true ∧ 0 < d.number_of_blocks ∧
      d.blocks.get? 0 = some (some hb) ∧ hb.block = .all ∧
      (d.new_hello_response pnet).encodeBytes.length ≤ 255 ∧
      none ∈ pnet.outgoing_packets) := by
  constructor
  · rintro ⟨p', hp, hne⟩
    cases hE : Dcp.parse bytes with
    | error e =>
      cases e <;> simp only [Dcp.handle_frame, hE] at hp <;>
        first
          | exact Option.noConfusion hp
          | exact (hne (congrArg PNet.outgoing_packets (Option.some.inj hp).symm)).elim
    | ok d =>
      cases hfid : d.frame_id with
      | request =>
        by_cases hcond : (d.dst_is_hello = true ∧ 0 < d.number_of_blocks)
        · cases hblk : d.blocks.get? 0 with
          | none =>
            rw [List.get?_eq_getElem?] at hblk
            have hrun : Dcp.handle_frame pnet bytes now = some pnet := by
              simp [Dcp.handle_frame, hE, hfid, hcond.1, hcond.2, hblk]
            rw [hrun] at hp
            exact (hne (congrArg PNet.outgoing_packets (Option.some.inj hp).symm)).elim
          | some ob =>
            rw [List.get?_eq_getElem?] at hblk
            cases ob with
            | none =>
              have hrun : Dcp.handle_frame pnet bytes now = some pnet := by
                simp [Dcp.handle_frame, hE, hfid, hcond.1, hcond.2, hblk]
              rw [hrun] at hp
              exact (hne (congrArg PNet.outgoing_packets (Option.some.inj hp).symm)).elim
            | some hb =>
              by_cases hall : hb.block = .all
              · by_cases hfits : (d.new_hello_response pnet).encodeBytes.length ≤ 255
                · have hrun : Dcp.handle_frame pnet bytes now =
                      some (pnet.queue_packet
                        ((d.new_hello_response pnet).encodeBytes ++
                          List.replicate
                            (255 - (d.new_hello_response pnet).encodeBytes.length) 0)
                        (now + d.response_delay_time)) := by
                    simp [Dcp.handle_frame, hE, hfid, hcond.1, hcond.2, hblk, hall, hfits]
                  rw [hrun] at hp
                  have hp' := (Option.some.inj hp)
                  have hfree : none ∈ pnet.outgoing_packets := by
                    by_contra hfull
                    apply hne
                    rw [← hp']
                    show setFirstFree pnet.outgoing_packets _ = pnet.outgoing_packets
                    exact setFirstFree_of_full hfull
                  exact ⟨d, hb, rfl, hfid, hcond.1, hcond.2,
                    by rw [List.get?_eq_getElem?]; exact hblk, hall, hfits, hfree⟩
                · have hrun : Dcp.handle_frame pnet bytes now = none := by
                    simp [Dcp.handle_frame, hE, hfid, hcond.1, hcond.2, hblk, hall, hfits]
                  rw [hrun] at hp
                  exact Option.noConfusion hp
              · have hrun : Dcp.handle_frame pnet bytes now = some pnet := by
                  simp [Dcp.handle_frame, hE, hfid, hcond.1, hcond.2, hblk, hall]
                rw [hrun] at hp
                exact (hne (congrArg PNet.outgoing_packets (Option.some.inj hp).symm)).elim
        · have hrun : Dcp.handle_frame pnet bytes now = some pnet := by
            simp only [Dcp.handle_frame, hE, hfid, if_neg hcond]
          rw [hrun] at hp
          exact (hne (congrArg PNet.outgoing_packets (Option.some.inj hp).symm)).elim
      | getSet =>
        have hrun : Dcp.handle_frame pnet bytes now =
            some (d.blocks.foldl applySetBlock pnet) := by
          simp [Dcp.handle_frame, hE, hfid]
        rw [hrun] at hp
        have hq := (applySetFold d.blocks pnet).1
        rw [Option.some.inj hp] at hq
        exact absurd hq hne
      | hello =>
        have hrun : Dcp.handle_frame pnet bytes now = some pnet := by
          simp [Dcp.handle_frame, hE, hfid]
        rw [hrun] at hp
        exact (hne (congrArg PNet.outgoing_packets (Option.some.inj hp).symm)).elim
      | response =>
        have hrun : Dcp.handle_frame pnet bytes now = some pnet := by
          simp [Dcp.handle_frame, hE, hfid]
        rw [hrun] at hp
        exact (hne (congrArg PNet.outgoing_packets (Option.some.inj hp).symm)).elim
  · rintro ⟨d, hb, hparse, hfid, hdst, hcount, hblk, hall, hfits, hfree⟩
    have hblk' := hblk
    rw [List.get?_eq_getElem?] at hblk'
    refine ⟨pnet.queue_packet
        ((d.new_hello_response pnet).encodeBytes ++
          List.replicate (255 - (d.new_hello_response pnet).encodeBytes.length) 0)
        (now + d.response_delay_time), ?_, ?_⟩
    · simp [Dcp.handle_frame, hparse, hfid, hdst, hcount, hblk', hall, hfits]
    · exact setFirstFree_ne hfree

/-- Witness for C6: the instantiated equivalence at the repository's hello
request, a wellformed default state and tick 5. -/
theorem c6_enqueue_iff_amended_witness :
    (∃ p', Dcp.handle_frame pnet0 helloPkt 5 = some p' ∧
      p'.outgoing_packets ≠ pnet0.outgoing_packets) ↔
    (∃ d hb, Dcp.parse helloPkt = .ok d ∧ d.frame_id = .request ∧
      d.dst_is_hello = true ∧ 0 < d.number_of_blocks ∧
      d.blocks.get? 0 = some (some hb) ∧ hb.block = .all ∧
      (d.new_hello_response pnet0).encodeBytes.length ≤ 255 ∧
      none ∈ pnet0.outgoing_packets) :=
  c6_enqueue_iff_amended pnet0 helloPkt 5
    ⟨by decide, by decide, by decide, by decide, by decide⟩

/-! ## C4: round-trip of built frames through encode and parse -/

deriving instance DecidableEq for Except

theorem get?_append_right' {l r : List Nat} {i : Nat} (h : l.length ≤ i) :
    (l ++ r).get? i = r.get? (i - l.length) := by
  rw [List.get?_eq_getElem?, List.get?_eq_getElem?]
  exact List.getElem?_append_right h

theorem get?_append_left' {l r : List Nat} {i : Nat} (h : i < l.length) :
    (l ++ r).get? i = l.get? i := by
  rw [List.get?_eq_getElem?, List.get?_eq_getElem?, List.getElem?_append, if_pos h]

theorem readU16At_append_right {l r : List Nat} {i : Nat} (h : l.length ≤ i) :
    readU16At (l ++ r) i = readU16At r (i - l.length) := by
  unfold readU16At
  rw [get?_append_right' h, get?_append_right' (by omega)]
  have : i + 1 - l.length = i - l.length + 1 := by omega
  rw [this]

theorem readU16At_append_left {l r : List Nat} {i : Nat} (h : i + 1 < l.length) :
    readU16At (l ++ r) i = readU16At l i := by
  unfold readU16At
  rw [get?_append_left' (by omega), get?_append_left' h]

theorem u16be_val {n : Nat} (h : n < 65536) : n / 256 % 256 * 256 + n % 256 = n := by
  omega

theorem readU16At_u16be {n : Nat} (r : List Nat) (h : n < 65536) :
    readU16At (u16be n ++ r) 0 = some n := by
  simp [readU16At, u16be, u16be_val h]

theorem readU16At_cons2_u16be {x y n : Nat} (r : List Nat) (h : n < 65536) :
    readU16At (x :: y :: (u16be n ++ r)) 2 = some n := by
  simp [readU16At, u16be, u16be_val h]

theorem u32be_val {n : Nat} (h : n < 4294967296) :
    ((n / 16777216 % 256 * 256 + n / 65536 % 256) * 256 + n / 256 % 256) * 256 + n % 256 =
      n := by
  omega

theorem readU32At_cons2_u32be {x y n : Nat} (r : List Nat) (h : n < 4294967296) :
    readU32At (x :: y :: (u32be n ++ r)) 2 = some n := by
  simp [readU32At, u32be, u32be_val h]

theorem set_append_replicate {l : List (Option DcpBlock)} {n : Nat}
    {v : Option DcpBlock} (hn : 0 < n) :
    (l ++ List.replicate n none).set l.length v =
      (l ++ [v]) ++ List.replicate (n - 1) none := by
  induction l with
  | nil =>
    cases n with
    | zero => omega
    | succ m => simp [List.replicate_succ]
  | cons a t ih => simp [ih]

theorem filterMap_id_map_some (l : List DcpBlock) (n : Nat) :
    ((l.map (fun b => some b) ++ List.replicate n (none : Option DcpBlock)).filterMap id) =
      l := by
  induction l with
  | nil =>
    induction n with
    | zero => rfl
    | succ m ih => simp_all [List.replicate_succ, List.filterMap_cons]
  | cons a t ih => simp_all [List.filterMap_cons]

/-- Round-trip wellformedness of a block value: byte-array fields have the
lengths their Rust types fix, `u16` fields are in range, the name/vendor
arrays are zero beyond their length (as every source constructor
guarantees), and `FullIpSuite` is excluded — its encoder writes declared
length 20 while its `block_length` accounts 18 + 4 = 22 on-wire bytes, so
its frames do not re-parse. -/
def Block.wf : Block → Prop
  | .all => True
  | .ip (.macAddress m) => m.address.length = 6
  | .ip (.ipParameter p) =>
    p.ip_address.length = 4 ∧ p.subnet_mask.length = 4 ∧ p.gateway.length = 4
  | .ip (.fullIpSuite _) => False
  | .deviceProperties (.deviceVendor dv) =>
    dv.length ≤ 255 ∧ dv.vendor.length = 255 ∧
      dv.vendor.drop dv.length = List.replicate (255 - dv.length) 0
  | .deviceProperties (.nameOfStation nos) =>
    nos.length ≤ 240 ∧ nos.name.length = 240 ∧
      nos.name.drop nos.length = List.replicate (240 - nos.length) 0
  | .deviceProperties (.deviceId id) => id.vendor_id < 65536 ∧ id.device_id < 65536
  | .deviceProperties _ => True

theorem roleRound (dr : DeviceRole) : DeviceRole.fromNat dr.toNat = some dr := by
  rcases dr <;> rfl

/-- One block, encoded into its zeroed slot, re-parses to the same `Block`
with the wire-declared length; the slot is `onWireLen` bytes and the parse
cursor advances by exactly that. -/
theorem block_roundtrip (b : Block) (h : b.wf) :
    (DcpBlock.new b).encodeBytes.length = b.onWireLen ∧
    readU16At (DcpBlock.new b).encodeBytes 2 = some b.declaredLen ∧
    b.declaredLen + 4 + (if (b.declaredLen + 4) % 2 = 1 then 1 else 0) = b.onWireLen ∧
    b.declaredLen + 4 ≤ b.onWireLen ∧
    DcpBlock.parse_block ((DcpBlock.new b).encodeBytes.take (b.declaredLen + 4)) =
      .ok ⟨b, b.declaredLen⟩ := by
  rcases b with (m | p | s) | (dv | nos | id | dr | _ | _ | di | _ | _ | _) | _
  case ip.macAddress =>
    have haddr : m.address.length = 6 := h
    have henc : (DcpBlock.new (.ip (.macAddress m))).encodeBytes =
        1 :: 1 :: 0 :: 8 :: 0 :: 1 :: m.address := by
      simp [DcpBlock.encodeBytes, Block.writtenBytes, DcpBlock.new, Block.blockLen,
        IpBlock.blockLen, MacAddress.blockLen, u16be, haddr]
    refine ⟨?_, ?_, by norm_num [Block.declaredLen, Block.onWireLen, Block.blockLen,
        IpBlock.blockLen, MacAddress.blockLen],
      by norm_num [Block.declaredLen, Block.onWireLen, Block.blockLen,
        IpBlock.blockLen, MacAddress.blockLen], ?_⟩
    · simp [henc, Block.onWireLen, Block.blockLen, IpBlock.blockLen,
        MacAddress.blockLen, haddr]
    · simp [henc, readU16At, Block.declaredLen]
    · rw [henc]
      have htake : (1 :: 1 :: 0 :: 8 :: 0 :: 1 :: m.address).take
          ((Block.ip (.macAddress m)).declaredLen + 4) =
          1 :: 1 :: 0 :: 8 :: 0 :: 1 :: m.address := by
        apply List.take_of_length_le
        simp [haddr, Block.declaredLen]
      rw [htake]
      have htk : m.address.take 6 = m.address := List.take_of_length_le (by omega)
      simp [DcpBlock.parse_block, pr, readU16At, BlockOption.fromNat, MacAddress.parse,
        haddr, htk, Block.declaredLen, Bind.bind, Except.bind, Pure.pure, Except.pure]
  case ip.ipParameter =>
    obtain ⟨h1, h2, h3⟩ := h
    have henc : (DcpBlock.new (.ip (.ipParameter p))).encodeBytes =
        1 :: 2 :: 0 :: 14 :: 0 :: 1 ::
          (p.ip_address ++ (p.subnet_mask ++ p.gateway)) := by
      simp [DcpBlock.encodeBytes, Block.writtenBytes, DcpBlock.new, Block.blockLen,
        IpBlock.blockLen, IpParameter.blockLen, u16be, h1, h2, h3]
    have hf1 : (p.ip_address ++ (p.subnet_mask ++ p.gateway)).take 4 = p.ip_address :=
      List.take_left' h1
    have hf2 : ((p.ip_address ++ (p.subnet_mask ++ p.gateway)).drop 4).take 4 =
        p.subnet_mask := by
      rw [List.drop_left' h1, List.take_left' h2]
    have hf3 : ((p.ip_address ++ (p.subnet_mask ++ p.gateway)).drop 8).take 4 =
        p.gateway := by
      rw [← List.append_assoc, List.drop_left' (by rw [List.length_append]; omega),
        List.take_of_length_le (by omega)]
    refine ⟨?_, ?_, by norm_num [Block.declaredLen, Block.onWireLen, Block.blockLen,
        IpBlock.blockLen, IpParameter.blockLen],
      by norm_num [Block.declaredLen, Block.onWireLen, Block.blockLen,
        IpBlock.blockLen, IpParameter.blockLen], ?_⟩
    · simp [henc, Block.onWireLen, Block.blockLen, IpBlock.blockLen,
        IpParameter.blockLen, h1, h2, h3]
    · simp [henc, readU16At, Block.declaredLen]
    · rw [henc]
      have htake : (1 :: 2 :: 0 :: 14 :: 0 :: 1 ::
          (p.ip_address ++ (p.subnet_mask ++ p.gateway))).take
          ((Block.ip (.ipParameter p)).declaredLen + 4) =
          1 :: 2 :: 0 :: 14 :: 0 :: 1 ::
            (p.ip_address ++ (p.subnet_mask ++ p.gateway)) := by
        apply List.take_of_length_le
        simp [h1, h2, h3, Block.declaredLen]
      rw [htake]
      simp [DcpBlock.parse_block, pr, readU16At, BlockOption.fromNat, IpParameter.parse,
        h1, h2, h3, hf1, hf2, hf3, Block.declaredLen, Bind.bind, Except.bind,
        Pure.pure, Except.pure]
  case ip.fullIpSuite => exact h.elim
  case deviceProperties.deviceVendor =>
    obtain ⟨hl, hlen, hdrop⟩ := h
    have htklen : (dv.vendor.take dv.length).length = dv.length := by
      simp [List.length_take, hlen]; omega
    have hval : (dv.length + 2) / 256 % 256 * 256 + (dv.length + 2) % 256 =
        dv.length + 2 := u16be_val (by omega)
    have hwcons : Block.writtenBytes (Block.deviceProperties (.deviceVendor dv)) =
        2 :: 1 :: ((dv.length + 2) / 256 % 256) :: ((dv.length + 2) % 256) ::
          0 :: 0 :: dv.vendor.take dv.length := by
      simp [Block.writtenBytes, u16be]
    have hwlen : (Block.writtenBytes (Block.deviceProperties (.deviceVendor dv))).length = dv.length + 6 := by
      rw [hwcons]; simp [htklen]; try omega
    have hrecon : dv.vendor.take dv.length ++
        List.replicate (255 - dv.length) 0 = dv.vendor := by
      rw [← hdrop]; exact List.take_append_drop _ _
    have hOW : (Block.deviceProperties (.deviceVendor dv)).onWireLen = dv.length + 6 ∨
        (Block.deviceProperties (.deviceVendor dv)).onWireLen = dv.length + 7 := by
      simp only [Block.onWireLen, Block.blockLen, DevicePropertiesBlock.blockLen]
      split_ifs <;> omega
    have hERepr : (DcpBlock.new (Block.deviceProperties (.deviceVendor dv))).encodeBytes =
        Block.writtenBytes (Block.deviceProperties (.deviceVendor dv)) ++
          List.replicate ((Block.deviceProperties (.deviceVendor dv)).onWireLen - (dv.length + 6)) 0 := by
      rw [← hwlen]; rfl
    refine ⟨?_, ?_, ?_, ?_, ?_⟩
    · rw [hERepr, List.length_append, hwlen, List.length_replicate]
      omega
    · rw [hERepr, readU16At_append_left (by rw [hwlen]; omega), hwcons]
      simp [readU16At, Block.declaredLen, hval]
    · simp only [Block.declaredLen, Block.onWireLen, Block.blockLen,
        DevicePropertiesBlock.blockLen]
      split_ifs <;> omega
    · simp only [Block.declaredLen, Block.onWireLen, Block.blockLen,
        DevicePropertiesBlock.blockLen]
      split_ifs <;> omega
    · have htake : (DcpBlock.new (Block.deviceProperties (.deviceVendor dv))).encodeBytes.take
          ((Block.deviceProperties (.deviceVendor dv)).declaredLen + 4) = Block.writtenBytes (Block.deviceProperties (.deviceVendor dv)) := by
        rw [hERepr]
        refine List.take_left' ?_
        rw [hwlen]
        simp only [Block.declaredLen]
      rw [htake, hwcons]
      have hpl : (if 2 ≤ dv.length + 2 then dv.length + 2 - 2
        else dv.length + 2 + 65534) = dv.length := by
        rw [if_pos (by omega)]
        omega
      simp [DcpBlock.parse_block, pr, readU16At, BlockOption.fromNat,
        DeviceVendor.parse_bytes, Bind.bind, Except.bind, Pure.pure, Except.pure,
        hval, hpl, htklen, hl, List.take_take, hrecon, Block.declaredLen]
      rw [if_neg (by omega), if_neg (by omega)]
  case deviceProperties.nameOfStation =>
    obtain ⟨hl, hlen, hdrop⟩ := h
    have htklen : (nos.name.take nos.length).length = nos.length := by
      simp [List.length_take, hlen]; omega
    have hval : (nos.length + 2) / 256 % 256 * 256 + (nos.length + 2) % 256 =
        nos.length + 2 := u16be_val (by omega)
    have hwcons : Block.writtenBytes (Block.deviceProperties (.nameOfStation nos)) =
        2 :: 2 :: ((nos.length + 2) / 256 % 256) :: ((nos.length + 2) % 256) ::
          0 :: 0 :: nos.name.take nos.length := by
      simp [Block.writtenBytes, u16be]
    have hwlen : (Block.writtenBytes (Block.deviceProperties (.nameOfStation nos))).length = nos.length + 6 := by
      rw [hwcons]; simp [htklen]; try omega
    have hrecon : nos.name.take nos.length ++
        List.replicate (240 - nos.length) 0 = nos.name := by
      rw [← hdrop]; exact List.take_append_drop _ _
    have hOW : (Block.deviceProperties (.nameOfStation nos)).onWireLen = nos.length + 6 ∨
        (Block.deviceProperties (.nameOfStation nos)).onWireLen = nos.length + 7 := by
      simp only [Block.onWireLen, Block.blockLen, DevicePropertiesBlock.blockLen]
      split_ifs <;> omega
    have hERepr : (DcpBlock.new (Block.deviceProperties (.nameOfStation nos))).encodeBytes =
        Block.writtenBytes (Block.deviceProperties (.nameOfStation nos)) ++
          List.replicate ((Block.deviceProperties (.nameOfStation nos)).onWireLen - (nos.length + 6)) 0 := by
      rw [← hwlen]; rfl
    refine ⟨?_, ?_, ?_, ?_, ?_⟩
    · rw [hERepr, List.length_append, hwlen, List.length_replicate]
      omega
    · rw [hERepr, readU16At_append_left (by rw [hwlen]; omega), hwcons]
      simp [readU16At, Block.declaredLen, hval]
    · simp only [Block.declaredLen, Block.onWireLen, Block.blockLen,
        DevicePropertiesBlock.blockLen]
      split_ifs <;> omega
    · simp only [Block.declaredLen, Block.onWireLen, Block.blockLen,
        DevicePropertiesBlock.blockLen]
      split_ifs <;> omega
    · have htake : (DcpBlock.new (Block.deviceProperties (.nameOfStation nos))).encodeBytes.take
          ((Block.deviceProperties (.nameOfStation nos)).declaredLen + 4) = Block.writtenBytes (Block.deviceProperties (.nameOfStation nos)) := by
        rw [hERepr]
        refine List.take_left' ?_
        rw [hwlen]
        simp only [Block.declaredLen]
      rw [htake, hwcons]
      have hpl : (if 2 ≤ nos.length + 2 then nos.length + 2 - 2
        else nos.length + 2 + 65534) = nos.length := by
        rw [if_pos (by omega)]
        omega
      simp [DcpBlock.parse_block, pr, readU16At, BlockOption.fromNat,
        NameOfStation.parse_bytes, Bind.bind, Except.bind, Pure.pure, Except.pure,
        hval, hpl, htklen, hl, List.take_take, hrecon, Block.declaredLen]
      rw [if_neg (by omega), if_neg (by omega)]
  case deviceProperties.deviceId =>
    obtain ⟨hv, hd⟩ := h
    have hv1 : id.vendor_id / 256 % 256 * 256 + id.vendor_id % 256 = id.vendor_id :=
      u16be_val hv
    have hd1 : id.device_id / 256 % 256 * 256 + id.device_id % 256 = id.device_id :=
      u16be_val hd
    have henc : (DcpBlock.new (.deviceProperties (.deviceId id))).encodeBytes =
        2 :: 3 :: 0 :: 6 :: 0 :: 0 :: (id.vendor_id / 256 % 256) ::
          (id.vendor_id % 256) :: (id.device_id / 256 % 256) :: (id.device_id % 256) ::
          [] := by
      simp [DcpBlock.encodeBytes, Block.writtenBytes, DcpBlock.new, Block.blockLen,
        DevicePropertiesBlock.blockLen, u16be]
    refine ⟨?_, ?_, by norm_num [Block.declaredLen, Block.onWireLen, Block.blockLen,
        DevicePropertiesBlock.blockLen],
      by norm_num [Block.declaredLen, Block.onWireLen, Block.blockLen,
        DevicePropertiesBlock.blockLen], ?_⟩
    · rw [henc]
      simp [Block.onWireLen, Block.blockLen, DevicePropertiesBlock.blockLen]
    · rw [henc]
      simp [readU16At, Block.declaredLen]
    · rw [henc]
      simp [DcpBlock.parse_block, pr, readU16At, BlockOption.fromNat,
        DeviceId.parse_bytes, Bind.bind, Except.bind, Pure.pure, Except.pure,
        hv1, hd1, Block.declaredLen]
  case deviceProperties.deviceRole =>
    have henc : (DcpBlock.new (.deviceProperties (.deviceRole dr))).encodeBytes =
        2 :: 4 :: 0 :: 4 :: 0 :: 0 :: dr.toNat :: 0 :: [] := by
      simp [DcpBlock.encodeBytes, Block.writtenBytes, DcpBlock.new, Block.blockLen,
        DevicePropertiesBlock.blockLen, u16be, List.replicate_succ]
    refine ⟨?_, ?_, by norm_num [Block.declaredLen, Block.onWireLen, Block.blockLen,
        DevicePropertiesBlock.blockLen],
      by norm_num [Block.declaredLen, Block.onWireLen, Block.blockLen,
        DevicePropertiesBlock.blockLen], ?_⟩
    · rw [henc]
      simp [Block.onWireLen, Block.blockLen, DevicePropertiesBlock.blockLen]
    · rw [henc]
      simp [readU16At, Block.declaredLen]
    · rw [henc]
      simp [DcpBlock.parse_block, pr, readU16At, BlockOption.fromNat, roleRound,
        Bind.bind, Except.bind, Pure.pure, Except.pure, Block.declaredLen]
  case deviceProperties.deviceOptions => exact ⟨by decide, by decide, by decide,
    by decide, by decide⟩
  case deviceProperties.aliasName => exact ⟨by decide, by decide, by decide,
    by decide, by decide⟩
  case deviceProperties.deviceInstance =>
    have henc : (DcpBlock.new (.deviceProperties (.deviceInstance di))).encodeBytes =
        2 :: 7 :: 0 :: 4 :: 0 :: 0 :: di.high :: di.low :: [] := by
      simp [DcpBlock.encodeBytes, Block.writtenBytes, DcpBlock.new, Block.blockLen,
        DevicePropertiesBlock.blockLen, u16be]
    refine ⟨?_, ?_, by norm_num [Block.declaredLen, Block.onWireLen, Block.blockLen,
        DevicePropertiesBlock.blockLen],
      by norm_num [Block.declaredLen, Block.onWireLen, Block.blockLen,
        DevicePropertiesBlock.blockLen], ?_⟩
    · rw [henc]
      simp [Block.onWireLen, Block.blockLen, DevicePropertiesBlock.blockLen]
    · rw [henc]
      simp [readU16At, Block.declaredLen]
    · rw [henc]
      simp [DcpBlock.parse_block, pr, readU16At, BlockOption.fromNat,
        DeviceInstance.parse_bytes, Bind.bind, Except.bind, Pure.pure, Except.pure,
        Block.declaredLen]
  case deviceProperties.oemDeviceId => exact ⟨by decide, by decide, by decide,
    by decide, by decide⟩
  case deviceProperties.standardGateway => exact ⟨by decide, by decide, by decide,
    by decide, by decide⟩
  case deviceProperties.rsiProperties => exact ⟨by decide, by decide, by decide,
    by decide, by decide⟩
  case all => exact ⟨by decide, by decide, by decide, by decide, by decide⟩


end Profinet

namespace Profinet

theorem parseBlocksLoop_succ (payload : List Nat) (dataLen fuel start count : Nat)
    (blocks : List (Option DcpBlock)) :
    parseBlocksLoop payload dataLen (fuel + 1) start count blocks =
      (if start < dataLen then
        (readU16At payload (start + 2)).elim (.error .panic) (fun declared =>
          if payload.length < start + (declared + 4) then .error .panic
          else
            (blockOutcome (DcpBlock.parse_block
                ((payload.drop start).take (declared + 4)))).elim (.error .panic)
              (fun ob =>
                if count < MAX_DCP_BLOCK_NUMBER then
                  parseBlocksLoop payload dataLen fuel
                    (start + (declared + 4) +
                      (if (declared + 4) % 2 = 1 then 1 else 0)) (count + 1)
                    (blocks.set count ob)
                else .error .panic))
      else .ok (count, blocks)) := rfl

theorem encBlocks_length (bs : List Block) (hwf : ∀ b ∈ bs, b.wf) :
    ((bs.map (fun b => (DcpBlock.new b).encodeBytes)).flatten).length =
      (bs.map Block.onWireLen).sum := by
  induction bs with
  | nil => rfl
  | cons b rest ih =>
    simp only [List.map_cons, List.flatten_cons, List.length_append, List.sum_cons]
    rw [(block_roundtrip b (hwf b (by simp))).1, ih (fun x hx => hwf x (by simp [hx]))]

/-- The parse loop over the concatenated encodings of wellformed blocks
consumes exactly one block per iteration: starting at slot `count` with the
cursor at `pre.length`, it fills the next `bs.length` slots with the parsed
blocks (each carrying its wire-declared length) and returns the new count. -/
theorem parseLoop_encodes (bs : List Block) :
    ∀ (pre : List Nat) (count : Nat) (parsedPre : List (Option DcpBlock)) (fuel : Nat),
      (∀ b ∈ bs, b.wf) → parsedPre.length = count → count + bs.length ≤ 32 →
      bs.length ≤ fuel →
      parseBlocksLoop (pre ++ (bs.map (fun b => (DcpBlock.new b).encodeBytes)).flatten)
        (pre.length + (bs.map Block.onWireLen).sum) fuel pre.length count
        (parsedPre ++ List.replicate (32 - count) none) =
      .ok (count + bs.length,
        (parsedPre ++ bs.map (fun b => some (⟨b, b.declaredLen⟩ : DcpBlock))) ++
          List.replicate (32 - (count + bs.length)) none) := by
  induction bs with
  | nil =>
    intro pre count parsedPre fuel hwf hcount hle hfuel
    cases fuel <;> simp [parseBlocksLoop]
  | cons b rest ih =>
    intro pre count parsedPre fuel hwf hcount hle hfuel
    obtain ⟨hlen, hread, hadv, hble, hparse⟩ := block_roundtrip b (hwf b (by simp))
    cases fuel with
    | zero => simp at hfuel
    | succ f =>
      have hrl : ((rest.map (fun b => (DcpBlock.new b).encodeBytes)).flatten).length =
          (rest.map Block.onWireLen).sum :=
        encBlocks_length rest (fun x hx => hwf x (by simp [hx]))
      have hlecount : count + rest.length + 1 ≤ 32 := by simp at hle; omega
      have hsplit : (((b :: rest).map (fun x => (DcpBlock.new x).encodeBytes)).flatten) =
          (DcpBlock.new b).encodeBytes ++
            ((rest.map (fun x => (DcpBlock.new x).encodeBytes)).flatten) := by
        simp
      have hsum : ((b :: rest).map Block.onWireLen).sum =
          b.onWireLen + (rest.map Block.onWireLen).sum := by simp
      rw [hsplit, hsum, parseBlocksLoop_succ]
      rw [if_pos (show pre.length < pre.length +
        (b.onWireLen + (rest.map Block.onWireLen).sum) from by omega)]
      have hr16 : readU16At (pre ++ ((DcpBlock.new b).encodeBytes ++
          (rest.map (fun x => (DcpBlock.new x).encodeBytes)).flatten)) (pre.length + 2) =
          some b.declaredLen := by
        rw [readU16At_append_right (by omega)]
        rw [show pre.length + 2 - pre.length = 2 from by omega]
        rw [readU16At_append_left (by omega), hread]
      rw [hr16]
      simp only [Option.elim]
      have hpaylen : (pre ++ ((DcpBlock.new b).encodeBytes ++
          (rest.map (fun x => (DcpBlock.new x).encodeBytes)).flatten)).length =
          pre.length + (b.onWireLen + (rest.map Block.onWireLen).sum) := by
        simp [hlen, hrl]
      rw [if_neg (show ¬ ((pre ++ ((DcpBlock.new b).encodeBytes ++
          (rest.map (fun x => (DcpBlock.new x).encodeBytes)).flatten)).length <
          pre.length + (b.declaredLen + 4)) from by rw [hpaylen]; omega)]
      have hslice : ((pre ++ ((DcpBlock.new b).encodeBytes ++
          (rest.map (fun x => (DcpBlock.new x).encodeBytes)).flatten)).drop
            pre.length).take (b.declaredLen + 4) =
          ((DcpBlock.new b).encodeBytes).take (b.declaredLen + 4) := by
        rw [List.drop_left, List.take_append_of_le_length (by omega)]
      rw [hslice, hparse]
      rw [show blockOutcome (.ok (⟨b, b.declaredLen⟩ : DcpBlock)) =
        some (some ⟨b, b.declaredLen⟩) from rfl]
      simp only [Option.elim]
      rw [if_pos (show count < MAX_DCP_BLOCK_NUMBER from by
        simp only [MAX_DCP_BLOCK_NUMBER]; omega)]
      have hset : (parsedPre ++ List.replicate (32 - count) none).set count
          (some (⟨b, b.declaredLen⟩ : DcpBlock)) =
          (parsedPre ++ [some ⟨b, b.declaredLen⟩]) ++
            List.replicate (32 - (count + 1)) none := by
        rw [← hcount, set_append_replicate (by omega)]
        congr 1
      rw [hset]
      rw [show pre.length + (b.declaredLen + 4) +
          (if (b.declaredLen + 4) % 2 = 1 then 1 else 0) =
          (pre ++ (DcpBlock.new b).encodeBytes).length from by
        rw [List.length_append, hlen, ← hadv]; try omega]
      rw [show pre.length + (b.onWireLen + (rest.map Block.onWireLen).sum) =
          (pre ++ (DcpBlock.new b).encodeBytes).length +
            (rest.map Block.onWireLen).sum from by
        rw [List.length_append, hlen]; try omega]
      rw [← List.append_assoc]
      rw [ih (pre ++ (DcpBlock.new b).encodeBytes) (count + 1)
        (parsedPre ++ [some (⟨b, b.declaredLen⟩ : DcpBlock)]) f
        (fun x hx => hwf x (by simp [hx]))
        (by simp [hcount]) (by omega) (by simp at hfuel; omega)]
      congr 2
      · simp only [List.length_cons]
        omega
      · simp
        omega

theorem wf_lenWf (b : Block) (h : b.wf) : b.lenWf := by
  rcases b with (m | p | s) | (dv | nos | id | dr | _ | _ | di | _ | _ | _) | _ <;>
    first
      | trivial
      | exact h.1

theorem onWireLen_pos (b : Block) : 4 ≤ b.onWireLen := by
  unfold Block.onWireLen
  split_ifs <;> omega

theorem length_le_sum_onWireLen (bs : List Block) :
    bs.length ≤ (bs.map Block.onWireLen).sum := by
  induction bs with
  | nil => simp
  | cons b rest ih =>
    simp only [List.length_cons, List.map_cons, List.sum_cons]
    have := onWireLen_pos b
    omega

theorem drop_append_right {l r : List Nat} {n : Nat} (h : l.length ≤ n) :
    (l ++ r).drop n = r.drop (n - l.length) := by
  rw [List.drop_append_eq_append_drop, List.drop_eq_nil_of_le h, List.nil_append]

theorem readU16At_cons {a : Nat} {l : List Nat} {i : Nat} :
    readU16At (a :: l) (i + 1) = readU16At l i := by
  simp [readU16At]

theorem fidRound (f : DcpFrameId) : DcpFrameId.fromU16 f.toU16 = some f := by
  rcases f <;> rfl

theorem sidRound (s : ServiceId) : ServiceId.fromNat s.toNat = some s := by
  rcases s <;> rfl

theorem styRound (s : ServiceType) : ServiceType.fromNat s.toNat = some s := by
  rcases s <;> rfl

theorem fidU16_lt (f : DcpFrameId) : f.toU16 < 65536 := by
  rcases f <;> decide

/-- `add_block` never touches the frame's addressing fields or the header
fields other than `data_length`; neither does any `foldl` of `add_block`s. -/
theorem addBlocks_preserved (bs : List Block) (d : Dcp) :
    (bs.foldl (fun a b => a.add_block (DcpBlock.new b)) d).destination = d.destination ∧
    (bs.foldl (fun a b => a.add_block (DcpBlock.new b)) d).source = d.source ∧
    (bs.foldl (fun a b => a.add_block (DcpBlock.new b)) d).eth_type = d.eth_type ∧
    (bs.foldl (fun a b => a.add_block (DcpBlock.new b)) d).frame_id = d.frame_id ∧
    (bs.foldl (fun a b => a.add_block (DcpBlock.new b)) d).header.service_id =
      d.header.service_id ∧
    (bs.foldl (fun a b => a.add_block (DcpBlock.new b)) d).header.service_type =
      d.header.service_type ∧
    (bs.foldl (fun a b => a.add_block (DcpBlock.new b)) d).header.x_id = d.header.x_id ∧
    (bs.foldl (fun a b => a.add_block (DcpBlock.new b)) d).header.response_delay_factor =
      d.header.response_delay_factor := by
  induction bs generalizing d with
  | nil => exact ⟨rfl, rfl, rfl, rfl, rfl, rfl, rfl, rfl⟩
  | cons b rest ih =>
    simp only [List.foldl_cons]
    exact ih (d.add_block (DcpBlock.new b))

/-- The block array and block count after a `foldl` of `add_block`s: the
blocks land in order after the already-occupied slots, the tail stays
`none`, and the count advances by the number of blocks added. -/
theorem addBlocks_blocks (bs : List Block) (pre : List (Option DcpBlock)) (d : Dcp)
    (hcount : d.number_of_blocks = pre.length)
    (hblocks : d.blocks = pre ++ List.replicate (32 - pre.length) none)
    (hle : pre.length + bs.length ≤ 32) :
    (bs.foldl (fun a b => a.add_block (DcpBlock.new b)) d).number_of_blocks =
      pre.length + bs.length ∧
    (bs.foldl (fun a b => a.add_block (DcpBlock.new b)) d).blocks =
      (pre ++ bs.map (fun b => some (DcpBlock.new b))) ++
        List.replicate (32 - (pre.length + bs.length)) none := by
  induction bs generalizing pre d with
  | nil => simpa using ⟨hcount, hblocks⟩
  | cons b rest ih =>
    simp only [List.foldl_cons]
    have hsetb : (d.add_block (DcpBlock.new b)).blocks =
        (pre ++ [some (DcpBlock.new b)]) ++
          List.replicate (32 - (pre ++ [some (DcpBlock.new b)]).length) none := by
      show d.blocks.set d.number_of_blocks (some (DcpBlock.new b)) = _
      rw [hblocks, hcount, set_append_replicate (by simp at hle; omega)]
      congr 1
      simp [Nat.sub_sub]
    obtain ⟨h1, h2⟩ := ih (pre ++ [some (DcpBlock.new b)]) (d.add_block (DcpBlock.new b))
      (by show d.number_of_blocks + 1 = _; rw [hcount]; simp)
      hsetb
      (by simp at hle ⊢; omega)
    constructor
    · rw [h1]; simp; omega
    · rw [h2]
      congr 1
      · simp
      · congr 1
        simp
        omega

/-- A frame built the way the source builds every frame: `Dcp::new` from a
fresh `DcpHeader::new`, then one `add_block` per block, each block wrapped
by `DcpBlock::new`. -/
def mkFrame (dst src : List Nat) (fid : DcpFrameId) (sid : ServiceId)
    (sty : ServiceType) (xid rd : Nat) (bs : List Block) : Dcp :=
  bs.foldl (fun a b => a.add_block (DcpBlock.new b))
    (Dcp.new dst src (DcpHeader.new sid sty xid rd) fid)

/-- C4 counterexample: a frame with a single `All` block does not survive
`encode_into` followed by `Dcp::parse` unchanged: the builder stores
`block_length = 4` (the padded on-wire length computed by `DcpBlock::new`)
while the parser stores the wire-declared length `0`, and the builder's
`response_delay_factor` would likewise be lost (`DcpHeader::encode_into`
writes a constant `0`). -/
theorem c4_roundtrip_counterexample :
    Dcp.parse (mkFrame [1, 14, 207, 0, 0, 0] [2, 3, 4, 5, 6, 7] .request .identify
        .request 7 0 [Block.all]).encodeBytes ≠
      .ok (mkFrame [1, 14, 207, 0, 0, 0] [2, 3, 4, 5, 6, 7] .request .identify
        .request 7 0 [Block.all]) := by
  decide

theorem readU16At_skipN {l r : List Nat} {n i j : Nat} (h : l.length = n)
    (hij : i = n + j) :
    readU16At (l ++ r) i = readU16At r j := by
  rw [readU16At_append_right (by omega), h, hij, Nat.add_sub_cancel_left]

theorem drop_skipN {l r : List Nat} {n i j : Nat} (h : l.length = n) (hij : i = n + j) :
    (l ++ r).drop i = r.drop j := by
  rw [drop_append_right (by omega), h, hij, Nat.add_sub_cancel_left]

/-- C4 amended: a frame built the way the source builds frames (fresh
header, `add_block` per block) re-parses to the same destination, source,
frame id, ServiceID/ServiceType/XID and the same block values in the same
order — but not to the same `Dcp` value (see the counterexample): the
parser stores each block's wire-declared length where the builder stored
the padded on-wire length, and `DcpHeader::encode_into` discards the
builder's `response_delay_factor` (the parsed one is always 0). -/
theorem c4_roundtrip_amended (dst src : List Nat) (fid : DcpFrameId)
    (sid : ServiceId) (sty : ServiceType) (xid rd : Nat) (bs : List Block)
    (hdst : dst.length = 6) (hsrc : src.length = 6) (hxid : xid < 4294967296)
    (hwf : ∀ b ∈ bs, b.wf) (hne : bs ≠ []) (hbn : bs.length ≤ 32) :
    Dcp.parse (mkFrame dst src fid sid sty xid rd bs).encodeBytes =
      .ok ⟨dst, src, .profinet, fid,
        ⟨sid, sty, xid, 0, (bs.map Block.onWireLen).sum⟩, bs.length,
        bs.map (fun b => some (⟨b, b.declaredLen⟩ : DcpBlock)) ++
          List.replicate (32 - bs.length) none⟩ := by
  obtain ⟨hdest, hsource, heth, hfid, hsid, hsty, hxid2, hrdf⟩ :=
    addBlocks_preserved bs (Dcp.new dst src (DcpHeader.new sid sty xid rd) fid)
  obtain ⟨hnum, hblk⟩ := addBlocks_blocks bs []
    (Dcp.new dst src (DcpHeader.new sid sty xid rd) fid) rfl rfl (by simp; omega)
  simp only [List.nil_append, List.length_nil, Nat.zero_add] at hnum hblk
  have hsum : (bs.map Block.onWireLen).sum ≤ 32 * 262 := by
    calc (bs.map Block.onWireLen).sum ≤ (bs.map Block.onWireLen).length * 262 := by
          apply List.sum_le_card_nsmul
          intro x hx
          obtain ⟨b, hb, rfl⟩ := List.mem_map.mp hx
          exact onWireLen_le b (wf_lenWf b (hwf b hb))
      _ ≤ 32 * 262 := by
          rw [List.length_map]
          exact Nat.mul_le_mul_right 262 hbn
  have h0 : (Dcp.new dst src (DcpHeader.new sid sty xid rd) fid).header.data_length = 0 :=
    rfl
  have hdata : (mkFrame dst src fid sid sty xid rd bs).header.data_length =
      (bs.map Block.onWireLen).sum := by
    unfold mkFrame
    rw [addBlocks_data_length bs _ (by rw [h0]; omega), h0, Nat.zero_add]
  have hfm : (((mkFrame dst src fid sid sty xid rd bs).blocks.filterMap id).map
      DcpBlock.encodeBytes) = bs.map (fun b => (DcpBlock.new b).encodeBytes) := by
    unfold mkFrame
    rw [hblk, show bs.map (fun b => some (DcpBlock.new b)) =
        (bs.map DcpBlock.new).map (fun x => some x) from by rw [List.map_map]; rfl,
      filterMap_id_map_some, List.map_map]
    rfl
  have hdest2 : (mkFrame dst src fid sid sty xid rd bs).destination = dst := hdest
  have hsource2 : (mkFrame dst src fid sid sty xid rd bs).source = src := hsource
  have heth2 : (mkFrame dst src fid sid sty xid rd bs).eth_type = .profinet := heth
  have hfid2 : (mkFrame dst src fid sid sty xid rd bs).frame_id = fid := hfid
  have hsid2 : (mkFrame dst src fid sid sty xid rd bs).header.service_id = sid := hsid
  have hsty2 : (mkFrame dst src fid sid sty xid rd bs).header.service_type = sty := hsty
  have hxid3 : (mkFrame dst src fid sid sty xid rd bs).header.x_id = xid := hxid2
  have hE : (mkFrame dst src fid sid sty xid rd bs).encodeBytes =
      dst ++ (src ++ (u16be 34962 ++ (u16be fid.toU16 ++
        (ServiceId.toNat sid :: ServiceType.toNat sty :: (u32be xid ++ (u16be 0 ++
          (u16be ((bs.map Block.onWireLen).sum) ++
            (bs.map (fun b => (DcpBlock.new b).encodeBytes)).flatten))))))) := by
    unfold Dcp.encodeBytes DcpHeader.encodeBytes
    rw [hdest2, hsource2, heth2, hfid2, hsid2, hsty2, hxid3, hdata, hfm]
    simp [List.append_assoc, EthType.toU16]
  obtain ⟨E, hEdef⟩ : ∃ E, E = (mkFrame dst src fid sid sty xid rd bs).encodeBytes :=
    ⟨_, rfl⟩
  rw [← hEdef]
  rw [hE] at hEdef
  have hu16 : ∀ m : Nat, (u16be m).length = 2 := fun _ => rfl
  have h12 : readU16At E 12 = some 34962 := by
    rw [hEdef, readU16At_skipN hdst (show (12 : Nat) = 6 + 6 from rfl),
      readU16At_skipN hsrc (show (6 : Nat) = 6 + 0 from rfl)]
    exact readU16At_u16be _ (by norm_num)
  have h14 : readU16At E 14 = some fid.toU16 := by
    rw [hEdef, readU16At_skipN hdst (show (14 : Nat) = 6 + 8 from rfl),
      readU16At_skipN hsrc (show (8 : Nat) = 6 + 2 from rfl),
      readU16At_skipN (hu16 34962) (show (2 : Nat) = 2 + 0 from rfl)]
    exact readU16At_u16be _ (fidU16_lt fid)
  have ht6 : E.take 6 = dst := by
    rw [hEdef]
    exact List.take_left' hdst
  have hd6 : (E.drop 6).take 6 = src := by
    rw [hEdef, drop_skipN hdst (show (6 : Nat) = 6 + 0 from rfl), List.drop_zero]
    exact List.take_left' hsrc
  obtain ⟨P, hPdef⟩ : ∃ P, P = ServiceId.toNat sid :: ServiceType.toNat sty ::
      (u32be xid ++ (u16be 0 ++ (u16be ((bs.map Block.onWireLen).sum) ++
        (bs.map (fun b => (DcpBlock.new b).encodeBytes)).flatten))) := ⟨_, rfl⟩
  have hP : E.drop 16 = P := by
    rw [hEdef, drop_skipN hdst (show (16 : Nat) = 6 + 10 from rfl),
      drop_skipN hsrc (show (10 : Nat) = 6 + 4 from rfl),
      drop_skipN (hu16 34962) (show (4 : Nat) = 2 + 2 from rfl),
      drop_skipN (hu16 fid.toU16) (show (2 : Nat) = 2 + 0 from rfl), List.drop_zero,
      hPdef]
  have hbbS : ((bs.map (fun b => (DcpBlock.new b).encodeBytes)).flatten).length =
      (bs.map Block.onWireLen).sum := encBlocks_length bs hwf
  have hSpos : 0 < (bs.map Block.onWireLen).sum := by
    have h1 : 0 < bs.length := List.length_pos.mpr hne
    have h2 := length_le_sum_onWireLen bs
    omega
  have hPlen : P.length =
      ((bs.map (fun b => (DcpBlock.new b).encodeBytes)).flatten).length + 10 := by
    rw [hPdef]
    simp [u32be, u16be]
  have hP10 : ¬(P.length ≤ 10) := by
    rw [hPlen, hbbS]
    omega
  have hg0 : P.get? 0 = some (ServiceId.toNat sid) := by
    rw [hPdef]
    rfl
  have hg1 : P.get? 1 = some (ServiceType.toNat sty) := by
    rw [hPdef]
    rfl
  have hg0' : P[0]? = some (ServiceId.toNat sid) := by
    rw [← List.get?_eq_getElem?]
    exact hg0
  have hg1' : P[1]? = some (ServiceType.toNat sty) := by
    rw [← List.get?_eq_getElem?]
    exact hg1
  have h32 : readU32At P 2 = some xid := by
    rw [hPdef]
    exact readU32At_cons2_u32be _ hxid
  have h6 : readU16At P 6 = some 0 := by
    rw [hPdef]
    rfl
  have h8 : readU16At P 8 = some ((bs.map Block.onWireLen).sum) := by
    rw [hPdef]
    show some ((bs.map Block.onWireLen).sum / 256 % 256 * 256 +
      (bs.map Block.onWireLen).sum % 256) = _
    exact congrArg some (u16be_val (by omega))
  have hdrop10 : P.drop 10 =
      (bs.map (fun b => (DcpBlock.new b).encodeBytes)).flatten := by
    rw [hPdef]
    rfl
  have hloop := parseLoop_encodes bs [] 0 [] ((bs.map Block.onWireLen).sum) hwf rfl
    (by omega) (length_le_sum_onWireLen bs)
  simp only [List.nil_append, List.length_nil, Nat.zero_add, Nat.sub_zero] at hloop
  have hloop2 : parseBlocksLoop
      ((bs.map (fun b => (DcpBlock.new b).encodeBytes)).flatten)
      ((bs.map Block.onWireLen).sum) ((bs.map Block.onWireLen).sum) 0 0
      [none, none, none, none, none, none, none, none, none, none, none, none, none,
        none, none, none, none, none, none, none, none, none, none, none, none, none,
        none, none, none, none, none, none] =
      .ok (bs.length, bs.map (fun b => some (⟨b, b.declaredLen⟩ : DcpBlock)) ++
        List.replicate (32 - bs.length) none) := hloop
  simp [Dcp.parse, h12, h14, fidRound fid, hP, hP10, hg0, hg1, hg0', hg1',
    sidRound sid, styRound sty, h32, h6, h8, hdrop10, MAX_DCP_BLOCK_NUMBER,
    ht6, hd6, EthType.fromU16]
  rw [hloop2]

/-- Witness for C4's amended round-trip at a concrete frame carrying one
`All` block. -/
theorem c4_roundtrip_amended_witness :
    Dcp.parse (mkFrame [1, 14, 207, 0, 0, 0] [2, 3, 4, 5, 6, 7] .request .identify
        .request 7 0 [Block.all]).encodeBytes =
      .ok ⟨[1, 14, 207, 0, 0, 0], [2, 3, 4, 5, 6, 7], .profinet, .request,
        ⟨.identify, .request, 7, 0, ([Block.all].map Block.onWireLen).sum⟩,
        [Block.all].length,
        [Block.all].map (fun b => some (⟨b, b.declaredLen⟩ : DcpBlock)) ++
          List.replicate (32 - [Block.all].length) none⟩ :=
  c4_roundtrip_amended [1, 14, 207, 0, 0, 0] [2, 3, 4, 5, 6, 7] .request .identify
    .request 7 0 [Block.all] rfl rfl (by decide)
    (by intro b hb; fin_cases hb; trivial) (by decide) (by decide)

end Profinet
